import Mathlib

/-!
Verification development for the batch job lifecycle manager of the
multi-model-llm-chat repository (services/batchJobService.js, with the
status-string mapping from public/bulk.js and the request-count helper
from utils/batchHelpers.js).  JavaScript sources are shallowly embedded:
strings stay strings, JS numbers that are only ever summed become `Int`,
fields that may be `undefined` become `Option`, JS `NaN` propagation is
made explicit through `JsNum`, and each `axios` interaction is an oracle
supplied through an environment record.  `JSON.parse` of provider payload
lines is an oracle function, and `JSON.stringify` of a sub-object that the
code never inspects is modelled by the raw source text stored with the
object.
-/

/-- Result of one provider HTTP interaction: either the parsed response
data or a thrown error carrying `error.message`. -/
inductive ProviderCall (α : Type) where
  | ok (data : α)
  | exn (message : String)
deriving DecidableEq

/-- JS truthiness of a possibly-absent string: `undefined` and the empty
string are falsy. -/
def jsTruthyStr : Option String → Bool
  | none => false
  | some s => s ≠ ""

/-- JS template-literal rendering of a possibly-undefined string
(`undefined` prints as "undefined"). -/
def optStr : Option String → String
  | none => "undefined"
  | some s => s

/-- JS `a || b` on numeric fields: `a` wins unless it is absent or `0`. -/
def orFalsy (a b : Option Int) : Option Int :=
  match a with
  | none => b
  | some n => if n = 0 then b else some n

/-- JS `x || 0` on a numeric field. -/
def orZero : Option Int → Int
  | none => 0
  | some n => n

/-- A JS number that may be `NaN`: adding `undefined` (coerced to `NaN`)
poisons every later sum. -/
inductive JsNum where
  | num (n : Int)
  | nan
deriving DecidableEq

/-- JS `acc += v` where `v` is a possibly-undefined numeric field:
an absent operand turns the accumulator into `NaN`. -/
def JsNum.addOpt : JsNum → Option Int → JsNum
  | num a, some b => num (a + b)
  | _, _ => nan

/-- Split a character list at every separator occurrence (structural
helper behind the JS `split` calls). -/
def charsSplitAux (sep : Char) : List Char → List Char → List (List Char)
  | [], acc => [acc.reverse]
  | c :: cs, acc =>
    if c = sep then acc.reverse :: charsSplitAux sep cs []
    else charsSplitAux sep cs (c :: acc)

/-- JS `s.split(sep)` for a one-character separator. -/
def jsSplitChar (sep : Char) (s : String) : List String :=
  (charsSplitAux sep s.data []).map String.mk

/-- `name.split(sep).pop()` as used on provider job names. -/
def jsSplitPop (s : String) : String :=
  (jsSplitChar '/' s).getLastD ""

/-- Lines of a JS `str.split('\n')` call. -/
def jsSplitNewline (s : String) : List String :=
  jsSplitChar '\n' s

/-- JS `s.trim()`: strip whitespace from both ends. -/
def jsTrim (s : String) : String :=
  String.mk ((((s.data.dropWhile Char.isWhitespace).reverse).dropWhile
    Char.isWhitespace).reverse)

/-- Substring search on character lists (the core of JS
`String.prototype.includes`). -/
def charsLeadWith : List Char → List Char → Bool
  | [], _ => true
  | _ :: _, [] => false
  | p :: ps, c :: cs => p = c && charsLeadWith ps cs

/-- `haystack` contains `needle` somewhere, on character lists. -/
def charsContain (needle : List Char) : List Char → Bool
  | [] => charsLeadWith needle []
  | c :: cs => charsLeadWith needle (c :: cs) || charsContain needle cs

/-- JS `haystack.includes(needle)`. -/
def jsIncludes (haystack needle : String) : Bool :=
  charsContain needle.data haystack.data

/-- JS `s.toLowerCase()` on the ASCII status vocabulary. -/
def jsToLowerCase (s : String) : String :=
  String.mk (s.data.map Char.toLower)

/-- An entry of the array returned by `parseJsonlResults`: a parsed line
or the error record produced for a malformed line. -/
inductive JsonlEntry (α : Type) where
  | parsed (v : α)
  | parseErrorLine (rawLine : String)
deriving DecidableEq

/-- `parseJsonlResults` (batchJobService.js): trim the document, split on
newlines, JSON.parse each non-empty line, record a malformed line as an
error entry, and drop the `null` placeholders of empty lines. -/
def parseJsonlResults (parseJSON : String → Option α) (jsonlString : String) :
    List (JsonlEntry α) :=
  ((jsSplitNewline (jsTrim jsonlString)).map (fun line =>
    if line ≠ "" then
      match parseJSON line with
      | some v => some (JsonlEntry.parsed v)
      | none => some (JsonlEntry.parseErrorLine line)
    else none)).filterMap id

/-- The usage object a parsed JSONL line may carry
(`obj?.response?.usageMetadata || obj?.response?.body?.usage`), with both
the Gemini and the OpenAI field spellings. -/
structure JsonlUsage where
  promptTokenCount : Option Int
  prompt_tokens : Option Int
  candidatesTokenCount : Option Int
  totalTokenCount : Option Int
  total_tokens : Option Int
  thoughtsTokenCount : Option Int
  reasoningTokens : Option Int
  promptTokensDetails : List (Option Int)
deriving DecidableEq

/-- A successfully JSON.parsed result line, reduced to what the usage
aggregation inspects; `raw` stands for the line's own source text. -/
structure JLineObj where
  raw : String
  usageMeta : Option JsonlUsage
deriving DecidableEq

/-- The aggregate usage object built by `parseJsonlUsageData` and
`parseGeminiUsageData` (the `usageMetadata` wrapper with its constant
one-element `promptTokensDetails` list). -/
structure GemAggUsage where
  promptTokenCount : Int
  candidatesTokenCount : Int
  totalTokenCount : Int
  promptDetailsTokenCount : Int
  thoughtsTokenCount : Int
deriving DecidableEq

/-- Per-line contribution to the prompt-token total:
`usageMetadata?.promptTokenCount || usageMetadata?.prompt_tokens || 0`. -/
def linePromptTokens (u : Option JsonlUsage) : Int :=
  orZero (orFalsy (u.bind JsonlUsage.promptTokenCount) (u.bind JsonlUsage.prompt_tokens))

/-- Per-line contribution to the candidates-token total. -/
def lineCandidatesTokens (u : Option JsonlUsage) : Int :=
  orZero (u.bind JsonlUsage.candidatesTokenCount)

/-- Per-line contribution to the total-token total. -/
def lineTotalTokens (u : Option JsonlUsage) : Int :=
  orZero (orFalsy (u.bind JsonlUsage.totalTokenCount) (u.bind JsonlUsage.total_tokens))

/-- Per-line contribution to the thoughts-token total (OpenAI spelling:
`completion_tokens_details.reasoning_tokens`). -/
def lineThoughtsTokens (u : Option JsonlUsage) : Int :=
  orZero (orFalsy (u.bind JsonlUsage.thoughtsTokenCount) (u.bind JsonlUsage.reasoningTokens))

/-- Per-line contribution of the `promptTokensDetails` list
(`detail.tokenCount || 0`, summed over the list). -/
def lineDetailsTokens (u : Option JsonlUsage) : Int :=
  match u with
  | none => 0
  | some m => (m.promptTokensDetails.map orZero).sum

/-- One loop iteration of `parseJsonlUsageData`: a non-empty line that
parses adds every present numeric usage field into the running totals
(absent fields default to 0 through `|| 0`); malformed and empty lines
contribute nothing. -/
def jsonlUsageStep (parseJSON : String → Option JLineObj) (acc : GemAggUsage)
    (line : String) : GemAggUsage :=
  if line ≠ "" then
    match parseJSON line with
    | some obj =>
        { promptTokenCount := acc.promptTokenCount + linePromptTokens obj.usageMeta
          candidatesTokenCount := acc.candidatesTokenCount + lineCandidatesTokens obj.usageMeta
          totalTokenCount := acc.totalTokenCount + lineTotalTokens obj.usageMeta
          promptDetailsTokenCount := acc.promptDetailsTokenCount + lineDetailsTokens obj.usageMeta
          thoughtsTokenCount := acc.thoughtsTokenCount + lineThoughtsTokens obj.usageMeta }
    | none => acc
  else acc

/-- `parseJsonlUsageData` (batchJobService.js): fold the loop iteration
over the trimmed document's lines, starting from zero totals. -/
def parseJsonlUsageData (parseJSON : String → Option JLineObj) (jsonlString : String) :
    GemAggUsage :=
  (jsSplitNewline (jsTrim jsonlString)).foldl (jsonlUsageStep parseJSON) ⟨0, 0, 0, 0, 0⟩

/-- The frontend normalization of an OpenAI batch status string
(public/bulk.js): lowercase the reported status and map it by substring
search, in this order: completed, failed, running, in_progress,
otherwise PENDING. -/
def bulkOpenaiStatusMap (openaiJobStatus : String) : String :=
  if jsIncludes (jsToLowerCase openaiJobStatus) "completed" then "COMPLETED"
  else if jsIncludes (jsToLowerCase openaiJobStatus) "failed" then "FAILED"
  else if jsIncludes (jsToLowerCase openaiJobStatus) "running" then "RUNNING"
  else if jsIncludes (jsToLowerCase openaiJobStatus) "in_progress" then "RUNNING"
  else "PENDING"

/-- Configuration value `ANTHROPIC_MODEL` (opaque to this development). -/
def ANTHROPIC_MODEL : String := "anthropic-model"

/-- Configuration value `ANTHROPIC_MAX_TOKENS` (opaque to this
development). -/
def ANTHROPIC_MAX_TOKENS : Int := 1024

/-- One element of a Gemini `contents` array: single-chat turns carry the
role "user", independent-prompt items carry no role; each part is its
text. -/
structure GemContent where
  role : Option String
  parts : List String
deriving DecidableEq

/-- One Gemini batch request item as built by
`formatGeminiBatchRequests`. -/
structure GeminiReqItem where
  metadataKey : String
  contents : List GemContent
  temperature : Int
  systemText : Option String
deriving DecidableEq

/-- `formatGeminiBatchRequests` returns one bare request object in
single-conversation mode and an array of request objects otherwise. -/
inductive GeminiFormatted where
  | one (r : GeminiReqItem)
  | many (rs : List GeminiReqItem)
deriving DecidableEq

/-- `formatGeminiBatchRequests` (batchJobService.js): in single-chat mode
all prompts become sequential user turns of one request keyed request-1;
otherwise each prompt becomes its own item keyed request-(index+1).  A
truthy system prompt is attached as `systemInstruction`. -/
def formatGeminiBatchRequests (rawPrompts : List String) (isSingleBatchChat : Bool)
    (temperature : Int) (systemPrompt : Option String) : GeminiFormatted :=
  if isSingleBatchChat then
    let localMessages := rawPrompts.map (fun prompt => GemContent.mk (some "user") [prompt])
    if jsTruthyStr systemPrompt then
      GeminiFormatted.one ⟨"request-1", localMessages, temperature, systemPrompt⟩
    else
      GeminiFormatted.one ⟨"request-1", localMessages, temperature, none⟩
  else
    if jsTruthyStr systemPrompt then
      GeminiFormatted.many ((rawPrompts.enum).map (fun p =>
        ⟨"request-" ++ toString (p.1 + 1), [GemContent.mk none [p.2]], temperature, systemPrompt⟩))
    else
      GeminiFormatted.many ((rawPrompts.enum).map (fun p =>
        ⟨"request-" ++ toString (p.1 + 1), [GemContent.mk none [p.2]], temperature, none⟩))

/-- One message of a Claude batch request. -/
structure ClaudeMsg where
  role : String
  content : String
deriving DecidableEq

/-- One Claude batch request item as built by
`formatClaudeBatchRequests`. -/
structure ClaudeReqItem where
  custom_id : String
  model : String
  max_tokens : Int
  messages : List ClaudeMsg
deriving DecidableEq

/-- `formatClaudeBatchRequests` (batchJobService.js): in single-chat mode
one item keyed request-1 holds all prompts as user messages; otherwise
each prompt becomes its own item keyed request-(index+1). -/
def formatClaudeBatchRequests (rawPrompts : List String) (isSingleBatchChat : Bool) :
    List ClaudeReqItem :=
  if isSingleBatchChat then
    [⟨"request-1", ANTHROPIC_MODEL, ANTHROPIC_MAX_TOKENS,
      rawPrompts.map (fun prompt => ClaudeMsg.mk "user" prompt)⟩]
  else
    (rawPrompts.enum).map (fun p =>
      ⟨"request-" ++ toString (p.1 + 1), ANTHROPIC_MODEL, ANTHROPIC_MAX_TOKENS,
        [ClaudeMsg.mk "user" p.2]⟩)

/-- Usage metadata carried by one Gemini inline response. -/
structure GemUsageMeta where
  promptTokenCount : Option Int
  candidatesTokenCount : Option Int
  totalTokenCount : Option Int
  thoughtsTokenCount : Option Int
  promptTokensDetails : List (Option Int)
deriving DecidableEq

/-- `parts[0]` of a Gemini candidate content. -/
structure GPart where
  text : Option String
deriving DecidableEq

/-- `content` of a Gemini candidate. -/
structure GContentC where
  parts : List GPart
deriving DecidableEq

/-- One entry of `response.candidates`. -/
structure GCandidate where
  content : Option GContentC
deriving DecidableEq

/-- `item.response` of a Gemini inline response; `raw` stands for the
JSON source text that `JSON.stringify(item.response)` reproduces. -/
structure GInlineResp where
  candidates : List GCandidate
  usageMetadata : Option GemUsageMeta
  raw : String
deriving DecidableEq

/-- `item.error` of a Gemini inline response. -/
structure GError where
  message : String
deriving DecidableEq

/-- `item.metadata` of a Gemini inline response. -/
structure GMeta where
  key : Option String
deriving DecidableEq

/-- One element of the `inlinedResponses` array of a Gemini batch LRO. -/
structure GeminiInlineItem where
  metadata : Option GMeta
  response : Option GInlineResp
  error : Option GError
deriving DecidableEq

/-- The inner `inlinedResponses` wrapper object. -/
structure GInlineBox where
  inlinedResponses : List GeminiInlineItem
deriving DecidableEq

/-- `lro.response` or `lro.metadata.output`. -/
structure GLroResponse where
  inlinedResponses : Option GInlineBox
deriving DecidableEq

/-- `lro.metadata` of a Gemini batch LRO. -/
structure GLroMetadata where
  state : Option String
  output : Option GLroResponse
deriving DecidableEq

/-- A Gemini long-running-operation payload as read by the status and
result paths. -/
structure GeminiLro where
  done : Bool
  error : Option GError
  response : Option GLroResponse
  metadata : Option GLroMetadata
  state : Option String
deriving DecidableEq

/-- `lro.response?.inlinedResponses?.inlinedResponses ||
lro.metadata?.output?.inlinedResponses?.inlinedResponses || []`
(an empty array present on the first path is truthy and wins). -/
def geminiInlined (lro : GeminiLro) : List GeminiInlineItem :=
  match lro.response.bind GLroResponse.inlinedResponses with
  | some box => box.inlinedResponses
  | none =>
    match (lro.metadata.bind GLroMetadata.output).bind GLroResponse.inlinedResponses with
    | some box => box.inlinedResponses
    | none => []

/-- `item.response?.candidates?.[0]?.content?.parts?.[0]?.text`. -/
def geminiItemText (item : GeminiInlineItem) : Option String :=
  ((((item.response.map GInlineResp.candidates).bind List.head?).bind
    GCandidate.content).bind (fun c => c.parts.head?)).bind GPart.text

/-- The `Response:` payload of one rendered Gemini block: the first
candidate text when truthy, else the stringified response object, else
the placeholder. -/
def geminiItemContent (item : GeminiInlineItem) : String :=
  if jsTruthyStr (geminiItemText item) then optStr (geminiItemText item)
  else
    match item.response with
    | some r => r.raw
    | none => "[No response content]"

/-- The `Prompt:` text of the block at position `index`: the joined
prompt list in single-chat mode, otherwise `originalPrompts[index]` when
truthy and the positional placeholder when absent or empty. -/
def geminiItemPrompt (originalPrompts : List String) (isSingleBatchChat : Bool)
    (index : Nat) : String :=
  if isSingleBatchChat then String.intercalate "__" originalPrompts
  else
    match originalPrompts.get? index with
    | some p => if p ≠ "" then p else "(Prompt " ++ toString (index + 1) ++ ")"
    | none => "(Prompt " ++ toString (index + 1) ++ ")"

/-- One rendered block of `parseGeminiInlineResponses`. -/
def geminiRenderItem (originalPrompts : List String) (isSingleBatchChat : Bool)
    (index : Nat) (item : GeminiInlineItem) : String :=
  let metadataKey := item.metadata.bind GMeta.key
  let keyText := if jsTruthyStr metadataKey then optStr metadataKey
    else "(Index " ++ toString (index + 1) ++ ")"
  let errorMessage := item.error.map GError.message
  "--- Request Key: " ++ keyText ++ " ---\n" ++
    "Prompt: " ++ geminiItemPrompt originalPrompts isSingleBatchChat index ++ "\n" ++
    "Response: " ++ geminiItemContent item ++
    (if jsTruthyStr errorMessage then "\nError: " ++ optStr errorMessage else "")

/-- `parseGeminiInlineResponses` (batchJobService.js): render each inline
response with its payload position index and join the blocks with blank
lines; an empty inline response list yields the fixed notice string. -/
def parseGeminiInlineResponses (lroInfo : GeminiLro) (originalPrompts : List String)
    (isSingleBatchChat : Bool) : String :=
  let inlinedResponses := geminiInlined lroInfo
  if inlinedResponses.length = 0 then
    "Gemini batch job SUCCEEDED, but no inline responses found."
  else
    String.intercalate "\n\n" ((inlinedResponses.enum).map
      (fun p => geminiRenderItem originalPrompts isSingleBatchChat p.1 p.2))

/-- `parseGeminiUsageData` returns the aggregate usage object, or the
fixed notice string when the inline response list is empty. -/
inductive GeminiUsageOut where
  | noResponses (msg : String)
  | agg (u : GemAggUsage)
deriving DecidableEq

/-- Usage contribution of one Gemini inline item
(`entry?.response?.usageMetadata || {}` with `|| 0` per scalar field). -/
def geminiItemUsage (item : GeminiInlineItem) : GemAggUsage :=
  let m := item.response.bind GInlineResp.usageMetadata
  { promptTokenCount := orZero (m.bind GemUsageMeta.promptTokenCount)
    candidatesTokenCount := orZero (m.bind GemUsageMeta.candidatesTokenCount)
    totalTokenCount := orZero (m.bind GemUsageMeta.totalTokenCount)
    promptDetailsTokenCount :=
      (((m.map GemUsageMeta.promptTokensDetails).getD []).map orZero).sum
    thoughtsTokenCount := orZero (m.bind GemUsageMeta.thoughtsTokenCount) }

/-- Field-wise addition of aggregate usage objects. -/
def GemAggUsage.add (a b : GemAggUsage) : GemAggUsage :=
  ⟨a.promptTokenCount + b.promptTokenCount,
   a.candidatesTokenCount + b.candidatesTokenCount,
   a.totalTokenCount + b.totalTokenCount,
   a.promptDetailsTokenCount + b.promptDetailsTokenCount,
   a.thoughtsTokenCount + b.thoughtsTokenCount⟩

/-- `parseGeminiUsageData` (batchJobService.js): the empty inline list
yields the notice string; single-chat mode reads only the first inline
response; otherwise every entry's present usage fields are summed with
absent fields defaulting to 0. -/
def parseGeminiUsageData (lroInfo : GeminiLro) (isSingleBatchChat : Bool) :
    GeminiUsageOut :=
  let inlinedResponses := geminiInlined lroInfo
  if inlinedResponses.length = 0 then
    GeminiUsageOut.noResponses "Gemini batch job SUCCEEDED, but no inline responses found."
  else if isSingleBatchChat then
    match inlinedResponses.head? with
    | some item => GeminiUsageOut.agg (geminiItemUsage item)
    | none => GeminiUsageOut.agg ⟨0, 0, 0, 0, 0⟩
  else
    GeminiUsageOut.agg (inlinedResponses.foldl
      (fun acc item => acc.add (geminiItemUsage item)) ⟨0, 0, 0, 0, 0⟩)

/-- The `usage` object of one Claude result message; every field may be
absent on a given item. -/
structure ClaudeUsage where
  input_tokens : Option Int
  cache_creation_input_tokens : Option Int
  cache_read_input_tokens : Option Int
  output_tokens : Option Int
deriving DecidableEq

/-- One entry of a Claude message `content` array. -/
structure ClaudeContentBlock where
  text : Option String
deriving DecidableEq

/-- `result.message` of a Claude result line. -/
structure ClaudeInnerMsg where
  content : List ClaudeContentBlock
  usage : Option ClaudeUsage
deriving DecidableEq

/-- `result` of a Claude result line; `raw` stands for the JSON source
text reproduced by `JSON.stringify` of this object, and `errorRaw` for
that of its `error` sub-object. -/
structure ClaudeResultDetails where
  type : Option String
  message : Option ClaudeInnerMsg
  errorRaw : Option String
  raw : String
deriving DecidableEq

/-- One parsed line of a Claude batch results document; `errorRaw` stands
for the stringified top-level `error` field. -/
structure ClaudeResultLine where
  custom_id : Option String
  result : Option ClaudeResultDetails
  errorRaw : Option String
deriving DecidableEq

/-- The four running usage totals of `getClaudeJobResult` (JS numbers,
so an absent operand poisons a total to `NaN`). -/
structure ClaudeUsageTotals where
  input_tokens : JsNum
  cache_creation_input_tokens : JsNum
  cache_read_input_tokens : JsNum
  output_tokens : JsNum
deriving DecidableEq

/-- `totals += result?.message?.usage?.<field>` for all four fields. -/
def claudeAddUsage (t : ClaudeUsageTotals) (rd : Option ClaudeResultDetails) :
    ClaudeUsageTotals :=
  let u := (rd.bind ClaudeResultDetails.message).bind ClaudeInnerMsg.usage
  ⟨t.input_tokens.addOpt (u.bind ClaudeUsage.input_tokens),
   t.cache_creation_input_tokens.addOpt (u.bind ClaudeUsage.cache_creation_input_tokens),
   t.cache_read_input_tokens.addOpt (u.bind ClaudeUsage.cache_read_input_tokens),
   t.output_tokens.addOpt (u.bind ClaudeUsage.output_tokens)⟩

/-- `JSON.stringify(error || resultDetails?.error)` of a Claude line
(an absent operand renders as "undefined" in the template literal). -/
def claudeErrorText (line : ClaudeResultLine) : String :=
  match line.errorRaw with
  | some e => e
  | none =>
    match line.result.bind ClaudeResultDetails.errorRaw with
    | some e => e
    | none => "undefined"

/-- The switch on `result?.type` that renders the body of one Claude
block. -/
def claudeBranchText (line : ClaudeResultLine) : String :=
  match line.result.bind ClaudeResultDetails.type with
  | some "succeeded" =>
    "Response: " ++
      optStr ((((line.result.bind ClaudeResultDetails.message).map
        ClaudeInnerMsg.content).bind List.head?).bind ClaudeContentBlock.text)
  | some "errored" => "Error: " ++ claudeErrorText line
  | some "expired" =>
    "Expired: " ++ (match line.result with
      | some rd => rd.raw
      | none => "undefined")
  | _ =>
    "Unknown: " ++ (match line.result with
      | some rd => rd.raw
      | none => "undefined")

/-- One rendered Claude block: header with the line's `custom_id` (or the
positional fallback), the prompt at position `idx` of the original
prompts, the type-dependent body, and the trailing blank line. -/
def claudeRenderBlock (originalPrompts : List String) (idx : Nat)
    (line : ClaudeResultLine) : String :=
  "--- Request Key: " ++
    (if jsTruthyStr line.custom_id then optStr line.custom_id
      else "(Index " ++ toString (idx + 1) ++ ")") ++ " ---\n" ++
    "Prompt: " ++ optStr (originalPrompts.get? idx) ++ "\n" ++
    claudeBranchText line ++ "\n\n"

/-- The multi-prompt loop of `getClaudeJobResult`: JSON.parse each
non-blank line, skipping lines that fail to parse; a parsed line is
numbered by the running counter of parsed lines (not by its key), its
block is appended, and its usage fields are added to the totals. -/
def claudeMultiLoop (parseLine : String → Option ClaudeResultLine)
    (originalPrompts : List String) :
    List String → Nat → ClaudeUsageTotals → String → String × ClaudeUsageTotals
  | [], _, totals, message => (message, totals)
  | l :: ls, counter, totals, message =>
    match parseLine l with
    | some line =>
      claudeMultiLoop parseLine originalPrompts ls (counter + 1)
        (claudeAddUsage totals line.result)
        (message ++ claudeRenderBlock originalPrompts counter line)
    | none => claudeMultiLoop parseLine originalPrompts ls counter totals message

/-- Single-chat branch of `getClaudeJobResult`: the fetched document is
one result object, rendered with the joined prompt list as its `Prompt:`
line. -/
def claudeSingleMessage (originalPrompts : List String) (line : ClaudeResultLine) :
    String × ClaudeUsageTotals :=
  ("--- Request Key: " ++
      (if jsTruthyStr line.custom_id then optStr line.custom_id else "(Index 1)") ++
      " ---\n" ++
      "Prompt: " ++ String.intercalate "__" originalPrompts ++ "\n" ++
      claudeBranchText line ++ "\n\n",
   claudeAddUsage ⟨JsNum.num 0, JsNum.num 0, JsNum.num 0, JsNum.num 0⟩ line.result)

/-- The results document fetched from a Claude `results_url`: a single
pre-parsed JSON object or the raw JSONL text. -/
inductive ClaudeFetched where
  | jsonObj (line : ClaudeResultLine)
  | jsonlText (s : String)
deriving DecidableEq

/-- Outcome of `getClaudeJobResult`: the rendered message together with
the usage totals appended after the `_USAGE_` marker, or the error string
returned when the download (or a misshaped document) fails. -/
inductive ClaudeJobResultOut where
  | withUsage (message : String) (usage : ClaudeUsageTotals)
  | fetchFailed (message : String)
deriving DecidableEq

/-- Constant standing for the engine message of the TypeError raised when
the multi-prompt branch calls `.split` on a non-string document. -/
def jsSplitNotAFunctionMsg : String := "jsonlString.split is not a function"

/-- `getClaudeJobResult` (batchJobService.js): download the results
document, then render either the single-chat block or the per-line
blocks, accumulating the four usage totals; a download failure is caught
and returned as an error string instead of the message/usage pair. -/
def getClaudeJobResult (fetch : ProviderCall ClaudeFetched)
    (parseLine : String → Option ClaudeResultLine)
    (originalPrompts : List String) (isSingleBatchChat : Bool) : ClaudeJobResultOut :=
  match fetch with
  | ProviderCall.exn m =>
    ClaudeJobResultOut.fetchFailed ("Error fetching Claude batch results: " ++ m)
  | ProviderCall.ok data =>
    if isSingleBatchChat then
      let line := match data with
        | ClaudeFetched.jsonObj l => l
        | ClaudeFetched.jsonlText _ => ⟨none, none, none⟩
      let (message, totals) := claudeSingleMessage originalPrompts line
      ClaudeJobResultOut.withUsage message totals
    else
      match data with
      | ClaudeFetched.jsonObj _ =>
        ClaudeJobResultOut.fetchFailed
          ("Error fetching Claude batch results: " ++ jsSplitNotAFunctionMsg)
      | ClaudeFetched.jsonlText s =>
        let lines := (jsSplitNewline s).filter (fun line => jsTrim line ≠ "")
        let (message, totals) := claudeMultiLoop parseLine originalPrompts lines 0
          ⟨JsNum.num 0, JsNum.num 0, JsNum.num 0, JsNum.num 0⟩ ""
        ClaudeJobResultOut.withUsage message totals

/-- The `request_counts` object of a Claude batch status payload. -/
structure RequestCounts where
  canceled : Int
  errored : Int
  expired : Int
  processing : Int
  succeeded : Int
deriving DecidableEq

/-- `getNonZeroStatus` (utils/batchHelpers.js): list the non-zero counts
in fixed order and trim the trailing space. -/
def getNonZeroStatus (modelInfo : RequestCounts) : String :=
  ((if modelInfo.canceled ≠ 0 then "Canceled : " ++ toString modelInfo.canceled ++ " " else "") ++
   (if modelInfo.errored ≠ 0 then "Errored : " ++ toString modelInfo.errored ++ " " else "") ++
   (if modelInfo.expired ≠ 0 then "Expired : " ++ toString modelInfo.expired ++ " " else "") ++
   (if modelInfo.processing ≠ 0 then "Processing : " ++ toString modelInfo.processing ++ " " else "") ++
   (if modelInfo.succeeded ≠ 0 then "Succeeded : " ++ toString modelInfo.succeeded ++ " " else "")) |> jsTrim

/-- JS `a || b` on string fields (absent or empty falls through). -/
def orFalsyStr (a b : Option String) : Option String :=
  match a with
  | none => b
  | some s => if s = "" then b else some s

/-- JS `a || "d"` on a string field. -/
def orFalsyStrD (a : Option String) (d : String) : String :=
  match a with
  | none => d
  | some s => if s = "" then d else s

/-- The `successData` slot of a job record: the cached Gemini LRO
payload, a Claude `results_url`, or an OpenAI output file id. -/
inductive SuccessData where
  | gLro (lro : GeminiLro)
  | cUrl (url : Option String)
  | oFile (fileId : Option String)
deriving DecidableEq

/-- JS truthiness of the `successData` slot (objects are truthy, a stored
string is truthy when non-empty). -/
def jsTruthySuccess : Option SuccessData → Bool
  | none => false
  | some (SuccessData.gLro _) => true
  | some (SuccessData.cUrl u) => jsTruthyStr u
  | some (SuccessData.oFile f) => jsTruthyStr f

/-- An LRO-shaped view of a non-object `successData` value (property
reads on a string give `undefined`). -/
def successAsLro : SuccessData → GeminiLro
  | SuccessData.gLro l => l
  | _ => ⟨false, none, none, none, none⟩

/-- The string a non-string `successData` value interpolates into the
OpenAI download URL. -/
def successDataUrlKey : Option SuccessData → String
  | none => "undefined"
  | some (SuccessData.oFile f) => optStr f
  | some (SuccessData.cUrl u) => optStr u
  | some (SuccessData.gLro _) => "[object Object]"

/-- The JSON round trip `JSON.parse(JSON.stringify(n))` on a JS number:
`NaN` serializes as `null`. -/
def jsNumJsonRoundTrip : JsNum → Option Int
  | JsNum.num n => some n
  | JsNum.nan => none

/-- The `usageData` slot of a job record: a Gemini aggregate (or notice
string) or the round-tripped Claude usage object. -/
inductive JobUsage where
  | gem (g : GeminiUsageOut)
  | cld (input_tokens cache_creation cache_read output_tokens : Option Int)
deriving DecidableEq

/-- The JSON round trip applied to the Claude usage totals. -/
def claudeUsageParsed (t : ClaudeUsageTotals) : JobUsage :=
  JobUsage.cld (jsNumJsonRoundTrip t.input_tokens)
    (jsNumJsonRoundTrip t.cache_creation_input_tokens)
    (jsNumJsonRoundTrip t.cache_read_input_tokens)
    (jsNumJsonRoundTrip t.output_tokens)

/-- One record of the in-memory job store.  `prompts` is stored as the
submitted list (text-input submissions always supply one; the absent
array of a file-upload submission is represented by the empty list). -/
structure Job where
  model : String
  method : String
  prompts : List String
  status : String
  fullName : Option String
  llmJobId : Option String
  result : Option String
  createdAt : Nat
  lastChecked : Nat
  successData : Option SuccessData
  usageData : Option JobUsage
deriving DecidableEq

/-- The in-memory job store, keyed by internal job id. -/
def Store := List (String × Job)

/-- Lookup in a JS-object-like association list. -/
def getAssoc (l : List (String × α)) (k : String) : Option α :=
  match l with
  | [] => none
  | (k₀, v₀) :: rest => if k₀ = k then some v₀ else getAssoc rest k

/-- JS object assignment: replace the binding in place, or append a new
one. -/
def setAssoc (l : List (String × α)) (k : String) (v : α) : List (String × α) :=
  match l with
  | [] => [(k, v)]
  | (k₀, v₀) :: rest => if k₀ = k then (k, v) :: rest else (k₀, v₀) :: setAssoc rest k v

/-- A record of one outbound provider call, keyed by the job (or
operation) it was issued for. -/
inductive CallTag where
  | create (modelId internalJobId : String)
  | poll (internalJobId : String)
  | fetch (internalJobId : String)
  | filePoll (operationName : String)
  | fileDownload (operationName : String)
deriving DecidableEq

/-- The job or operation a call was issued for. -/
def CallTag.key : CallTag → String
  | create _ id => id
  | poll id => id
  | fetch id => id
  | filePoll op => op
  | fileDownload op => op

/-- A Claude batch status payload as read by the status and result
paths. -/
structure ClaudeBatchInfo where
  ended_at : Option String
  processing_status : Option String
  request_counts : RequestCounts
  results_url : Option String
deriving DecidableEq

/-- A Gemini file-upload batch status payload (`metadata.state` plus the
three possible output file locators). -/
structure GeminiFileResultResp where
  metadataState : Option String
  outputConfigFileName : Option String
  metadataOutputResponsesFile : Option String
  responseResponsesFile : Option String
deriving DecidableEq

/-- An OpenAI batch status payload. -/
structure OpenaiBatchResp where
  status : Option String
  output_file_id : Option String
  completed_at : Option Int
deriving DecidableEq

/-- Provider oracle for `getBatchJobStatus`: per-job poll responses
(keyed by internal job id), file-upload poll responses (keyed by
operation name), and the clock. -/
structure StatusEnv where
  geminiPoll : String → ProviderCall GeminiLro
  claudePoll : String → ProviderCall ClaudeBatchInfo
  fileGeminiStatus : String → ProviderCall GeminiFileResultResp
  fileOpenaiStatus : String → ProviderCall OpenaiBatchResp
  now : Nat

/-- One entry of the `statusUpdates` object. -/
inductive StatusEntry where
  | notFound (message : String)
  | statusInfo (status : String) (result : Option String) (lastChecked : Nat)
deriving DecidableEq

/-- The per-job body of the non-file branch of `getBatchJobStatus`
(batchJobService.js): unknown job reports NOT_FOUND; a terminal job is
answered from the cache with no provider call; otherwise the provider is
polled, the job mutated accordingly (any exception marks it FAILED), and
`lastChecked` refreshed. -/
def jobStatusStep (env : StatusEnv) (internalJobId : String) (ojob : Option Job) :
    Option Job × StatusEntry × List CallTag :=
  match ojob with
  | none => (none, StatusEntry.notFound "Job not found.", [])
  | some job =>
    if job.status = "COMPLETED" ∨ job.status = "FAILED" then
      (some job, StatusEntry.statusInfo job.status job.result job.lastChecked, [])
    else
      let stepped : Job × List CallTag :=
        if job.model = "gemini" then
          if ¬ jsTruthyStr job.llmJobId then
            ({ job with
                status := "FAILED"
                result := some ("Failed to check status: Gemini job " ++ internalJobId ++
                  " has no LLM job ID.") }, [])
          else
            match env.geminiPoll internalJobId with
            | ProviderCall.exn m =>
              ({ job with
                  status := "FAILED"
                  result := some ("Failed to check status: " ++ m) },
               [CallTag.poll internalJobId])
            | ProviderCall.ok lroInfo =>
              (if lroInfo.done then
                match lroInfo.error with
                | some e =>
                  { job with
                      status := "FAILED"
                      result := some ("Gemini job failed: " ++ e.message) }
                | none =>
                  { job with
                      status := "COMPLETED"
                      result := some ("Gemini batch job " ++ jsSplitPop (optStr job.llmJobId) ++
                        " SUCCEEDED. Results are available.")
                      successData := some (SuccessData.gLro lroInfo) }
              else
                { job with status := if lroInfo.error.isSome then "FAILED" else "RUNNING" },
               [CallTag.poll internalJobId])
        else if job.model = "claude" then
          if ¬ jsTruthyStr job.llmJobId then
            ({ job with
                status := "FAILED"
                result := some ("Failed to check status: Claude job " ++ internalJobId ++
                  " has no LLM job ID.") }, [])
          else
            match env.claudePoll internalJobId with
            | ProviderCall.exn m =>
              ({ job with
                  status := "FAILED"
                  result := some ("Failed to check status: " ++ m) },
               [CallTag.poll internalJobId])
            | ProviderCall.ok lroInfo =>
              (if jsTruthyStr lroInfo.ended_at ∧ lroInfo.processing_status = some "ended" then
                { job with
                    result := some ("Claude batch job " ++ jsSplitPop (optStr job.llmJobId) ++
                      " status. " ++ getNonZeroStatus lroInfo.request_counts)
                    successData := some (SuccessData.cUrl lroInfo.results_url)
                    status := "COMPLETED" }
              else
                { job with
                    status := "RUNNING"
                    result := some ("Model " ++ job.model ++ " is still running, please check later.") },
               [CallTag.poll internalJobId])
        else (job, [])
      let job₂ := { stepped.1 with lastChecked := env.now }
      (some job₂, StatusEntry.statusInfo job₂.status job₂.result job₂.lastChecked, stepped.2)

/-- The loop of the non-file branch of `getBatchJobStatus`, one step per
requested id (the concurrent map is determinized in list order; each
step reads and writes only its own id). -/
def statusRun (env : StatusEnv) :
    List String → Store → List (String × StatusEntry) → List CallTag →
    List (String × StatusEntry) × Store × List CallTag
  | [], store, acc, calls => (acc, store, calls)
  | id :: rest, store, acc, calls =>
    let step := jobStatusStep env id (getAssoc store id)
    let store₁ := match step.1 with
      | some j => setAssoc store id j
      | none => store
    statusRun env rest store₁ (setAssoc acc id step.2.1) (calls ++ step.2.2)

/-- The value returned by `getBatchJobStatus`: the single-object shape of
the file-upload Gemini branch, the one-entry map of the file-upload
OpenAI branch, or the per-job update map. -/
inductive StatusOut where
  | fileGemini (state : Option String) (fullResponse : GeminiFileResultResp)
  | fileOpenai (entries : List (String × OpenaiBatchResp))
  | updates (entries : List (String × StatusEntry))
deriving DecidableEq

/-- `getBatchJobStatus` (batchJobService.js): validate the id list, then
either the file-upload branch (which consults only the first id) or the
per-job reconciliation loop.  The triple also carries the resulting
store and the provider calls issued. -/
def getBatchJobStatus (env : StatusEnv) (store : Store)
    (internalJobIds : Option (List String)) (isFileUpload : Bool) (modelId : String) :
    Except String StatusOut × Store × List CallTag :=
  match internalJobIds with
  | none => (Except.error "No job IDs provided.", store, [])
  | some ids =>
    if ids.length = 0 then (Except.error "No job IDs provided.", store, [])
    else if isFileUpload then
      if modelId = "gemini" then
        let operationName := ids.headD ""
        if operationName = "" then (Except.error "operationName is required.", store, [])
        else
          match env.fileGeminiStatus operationName with
          | ProviderCall.exn m => (Except.error m, store, [CallTag.filePoll operationName])
          | ProviderCall.ok resp =>
            (Except.ok (StatusOut.fileGemini resp.metadataState resp), store,
             [CallTag.filePoll operationName])
      else if modelId = "openai" then
        let operationName := ids.headD ""
        if operationName = "" then (Except.error "operationName is required.", store, [])
        else
          match env.fileOpenaiStatus operationName with
          | ProviderCall.exn m => (Except.error m, store, [CallTag.filePoll operationName])
          | ProviderCall.ok resp =>
            let store₁ := match getAssoc store operationName with
              | some job => setAssoc store operationName
                  { job with successData := some (SuccessData.oFile resp.output_file_id) }
              | none => store
            (Except.ok (StatusOut.fileOpenai [(operationName, resp)]), store₁,
             [CallTag.filePoll operationName])
      else
        (Except.error ("Model " ++ modelId ++ " not supported for file upload batch status check."),
         store, [])
    else
      let run := statusRun env ids store [] []
      (Except.ok (StatusOut.updates run.1), run.2.1, run.2.2)

/-- Provider oracle for `getBatchJobResult`: per-job operation re-reads
and results downloads (keyed by internal job id), the file-upload status
and download calls (keyed by operation name or file locator), the
JSON.parse oracles, and the clock. -/
structure ResultEnv where
  geminiLroFetch : String → ProviderCall GeminiLro
  claudeInfoFetch : String → ProviderCall ClaudeBatchInfo
  claudeResultsFetch : String → ProviderCall ClaudeFetched
  parseClaudeLine : String → Option ClaudeResultLine
  fileGeminiStatus : String → ProviderCall GeminiFileResultResp
  fileGeminiDownload : String → ProviderCall String
  fileOpenaiDownload : String → ProviderCall String
  parseJsonLine : String → Option JLineObj
  now : Nat

/-- One entry of the map returned by the non-file branch of
`getBatchJobResult`. -/
inductive ResultEntry where
  | notFound (message : String)
  | resultInfo (status : String) (result : Option String) (lastChecked : Nat)
      (usageData : Option JobUsage)
deriving DecidableEq

/-- Constant standing for the engine message of the TypeError raised by
reading a property of `null` (the cached-payload read on a job whose
`successData` was never set). -/
def jsNullReadMsg : String := "Cannot read properties of null (reading response)"

/-- Constant standing for the engine message of the SyntaxError raised by
`JSON.parse(undefined)` (the usage half of a Claude result string that
carries no `_USAGE_` marker). -/
def jsUndefinedJsonParseMsg : String := "Unexpected token u in JSON at position 0"

/-- The per-job body of the non-file branch of `getBatchJobResult`
(batchJobService.js): unknown job reports NOT_FOUND; a job whose status
is not COMPLETED is skipped with an early return that writes no entry
and touches nothing; a COMPLETED job is reprocessed — its cached (or
freshly fetched) payload is parsed and `result`/`usageData` overwritten,
with any exception marking the job FAILED — and `lastChecked`
refreshed. -/
def jobResultStep (env : ResultEnv) (isSingleBatchChat : Bool) (internalJobId : String)
    (ojob : Option Job) : Option Job × Option ResultEntry × List CallTag :=
  match ojob with
  | none => (none, some (ResultEntry.notFound "Job not found."), [])
  | some job =>
    if job.status ≠ "COMPLETED" then (some job, none, [])
    else
      let stepped : Job × List CallTag :=
        if job.model = "gemini" then
          if ¬ jsTruthyStr job.llmJobId then
            ({ job with
                status := "FAILED"
                result := some ("Failed to check status: Gemini job " ++ internalJobId ++
                  " has no LLM job ID.") }, [])
          else if jsTruthySuccess job.successData then
            let lro := successAsLro ((job.successData).getD (SuccessData.cUrl none))
            ({ job with
                result := some (parseGeminiInlineResponses lro job.prompts isSingleBatchChat)
                usageData := some (JobUsage.gem (parseGeminiUsageData lro isSingleBatchChat)) },
             [])
          else
            match env.geminiLroFetch internalJobId with
            | ProviderCall.exn m =>
              ({ job with
                  status := "FAILED"
                  result := some ("Failed to check status: " ++ m) },
               [CallTag.fetch internalJobId])
            | ProviderCall.ok lroInfo =>
              (if lroInfo.done ∧ lroInfo.error = none then
                match job.successData with
                | none =>
                  { job with
                      status := "FAILED"
                      result := some ("Failed to check status: " ++ jsNullReadMsg) }
                | some sd =>
                  { job with
                      status := "COMPLETED"
                      result := some (parseGeminiInlineResponses lroInfo job.prompts
                        isSingleBatchChat)
                      usageData := some (JobUsage.gem
                        (parseGeminiUsageData (successAsLro sd) isSingleBatchChat)) }
              else if lroInfo.done then
                { job with
                    status := "FAILED"
                    result := some ("Gemini job failed: " ++
                      (match lroInfo.error with
                        | some e => e.message
                        | none => "undefined")) }
              else
                let st := orFalsyStrD
                  (orFalsyStr (lroInfo.metadata.bind GLroMetadata.state) lroInfo.state) "RUNNING"
                { job with
                    status := st
                    result := some ("Gemini job is " ++ st ++ ". Results are not yet available.") },
               [CallTag.fetch internalJobId])
        else if job.model = "claude" then
          if ¬ jsTruthyStr job.llmJobId then
            ({ job with
                status := "FAILED"
                result := some ("Failed to check status: Claude job " ++ internalJobId ++
                  " has no LLM job ID.") }, [])
          else if jsTruthySuccess job.successData then
            (match getClaudeJobResult (env.claudeResultsFetch internalJobId)
                env.parseClaudeLine job.prompts isSingleBatchChat with
              | ClaudeJobResultOut.withUsage message totals =>
                { job with
                    result := some message
                    usageData := some (claudeUsageParsed totals) }
              | ClaudeJobResultOut.fetchFailed _ =>
                { job with
                    status := "FAILED"
                    result := some ("Failed to check status: " ++ jsUndefinedJsonParseMsg) },
             [CallTag.fetch internalJobId])
          else
            match env.claudeInfoFetch internalJobId with
            | ProviderCall.exn m =>
              ({ job with
                  status := "FAILED"
                  result := some ("Failed to check status: " ++ m) },
               [CallTag.fetch internalJobId])
            | ProviderCall.ok lroInfo =>
              if jsTruthyStr lroInfo.ended_at ∧ lroInfo.processing_status = some "ended" then
                (match getClaudeJobResult (env.claudeResultsFetch internalJobId)
                    env.parseClaudeLine job.prompts isSingleBatchChat with
                  | ClaudeJobResultOut.withUsage message totals =>
                    { job with
                        result := some message
                        usageData := some (claudeUsageParsed totals)
                        successData := some (SuccessData.cUrl lroInfo.results_url)
                        status := "COMPLETED" }
                  | ClaudeJobResultOut.fetchFailed _ =>
                    { job with
                        status := "FAILED"
                        result := some ("Failed to check status: " ++ jsUndefinedJsonParseMsg) },
                 [CallTag.fetch internalJobId, CallTag.fetch internalJobId])
              else
                ({ job with
                    status := "PENDING"
                    result := some ("Model " ++ job.model ++ " is still running, please check later.") },
                 [CallTag.fetch internalJobId])
        else (job, [])
      let job₂ := { stepped.1 with lastChecked := env.now }
      (some job₂,
       some (ResultEntry.resultInfo job₂.status job₂.result job₂.lastChecked job₂.usageData),
       stepped.2)

/-- The loop of the non-file branch of `getBatchJobResult` (determinized
in list order; each step reads and writes only its own id, and the
skipped non-COMPLETED jobs write no entry). -/
def resultRun (env : ResultEnv) (isSingleBatchChat : Bool) :
    List String → Store → List (String × ResultEntry) → List CallTag →
    List (String × ResultEntry) × Store × List CallTag
  | [], store, acc, calls => (acc, store, calls)
  | id :: rest, store, acc, calls =>
    let step := jobResultStep env isSingleBatchChat id (getAssoc store id)
    let store₁ := match step.1 with
      | some j => setAssoc store id j
      | none => store
    let acc₁ := match step.2.1 with
      | some e => setAssoc acc id e
      | none => acc
    resultRun env isSingleBatchChat rest store₁ acc₁ (calls ++ step.2.2)

/-- The data object returned by the file-upload result branches. -/
structure FileResultData where
  results : List (JsonlEntry JLineObj)
  usageData : GemAggUsage
deriving DecidableEq

/-- The value returned by `getBatchJobResult`. -/
inductive ResultOut where
  | fileData (d : FileResultData)
  | updates (entries : List (String × ResultEntry))
deriving DecidableEq

/-- `getBatchJobResult` (batchJobService.js): validate the id list, then
either the file-upload branch (which consults only the first id,
downloads the results document and parses it) or the per-job result
loop. -/
def getBatchJobResult (env : ResultEnv) (store : Store)
    (internalJobIds : Option (List String)) (isSingleBatchChat : Bool)
    (isFileUpload : Bool) (modelId : String) :
    Except String ResultOut × Store × List CallTag :=
  match internalJobIds with
  | none => (Except.error "No job IDs provided.", store, [])
  | some ids =>
    if ids.length = 0 then (Except.error "No job IDs provided.", store, [])
    else if isFileUpload then
      if modelId = "gemini" then
        let operationName := ids.headD ""
        if operationName = "" then (Except.error "operationName is required.", store, [])
        else
          match env.fileGeminiStatus operationName with
          | ProviderCall.exn m => (Except.error m, store, [CallTag.filePoll operationName])
          | ProviderCall.ok resp =>
            let batchState := resp.metadataState
            let outputFileName := orFalsyStr (orFalsyStr resp.outputConfigFileName
              resp.metadataOutputResponsesFile) resp.responseResponsesFile
            if batchState ≠ some "BATCH_STATE_COMPLETED" ∧
                batchState ≠ some "BATCH_STATE_SUCCEEDED" then
              (Except.error ("Batch is not completed yet. Current state: " ++ optStr batchState),
               store, [CallTag.filePoll operationName])
            else if ¬ jsTruthyStr outputFileName then
              (Except.error "Batch completed, but no output file name found in its metadata.",
               store, [CallTag.filePoll operationName])
            else
              match env.fileGeminiDownload (optStr outputFileName) with
              | ProviderCall.exn m =>
                (Except.error m, store,
                 [CallTag.filePoll operationName, CallTag.fileDownload operationName])
              | ProviderCall.ok raw =>
                (Except.ok (ResultOut.fileData
                  ⟨parseJsonlResults env.parseJsonLine raw,
                   parseJsonlUsageData env.parseJsonLine raw⟩), store,
                 [CallTag.filePoll operationName, CallTag.fileDownload operationName])
      else if modelId = "openai" then
        let operationName := ids.headD ""
        match getAssoc store operationName with
        | none => (Except.error "Job not found or output file ID missing.", store, [])
        | some job =>
          if ¬ jsTruthySuccess job.successData then
            (Except.error "Job not found or output file ID missing.", store, [])
          else
            match env.fileOpenaiDownload (successDataUrlKey job.successData) with
            | ProviderCall.exn m =>
              (Except.error m, store, [CallTag.fileDownload operationName])
            | ProviderCall.ok raw =>
              (Except.ok (ResultOut.fileData
                ⟨parseJsonlResults env.parseJsonLine raw,
                 parseJsonlUsageData env.parseJsonLine raw⟩), store,
               [CallTag.fileDownload operationName])
      else
        (Except.error ("Model " ++ modelId ++
          " not supported for file upload batch result retrieval."), store, [])
    else
      let run := resultRun env isSingleBatchChat ids store [] []
      (Except.ok (ResultOut.updates run.1), run.2.1, run.2.2)

/-- Provider oracle for `submitBatchJob`: whether each API key is
configured, the batch-create responses (keyed by internal job id; the
Gemini response carries `data.name`, the Claude response `data.id`), and
the clock. -/
structure SubmitEnv where
  googleKeySet : Bool
  anthropicKeySet : Bool
  geminiCreate : String → ProviderCall String
  claudeCreate : String → ProviderCall String
  now : Nat

/-- One entry of the `submittedJobs` object. -/
inductive SubmitEntry where
  | pendingEntry (internalJobId : String) (llmJobId : String)
  | failedEntry (internalJobId : String) (message : String)
deriving DecidableEq

/-- `generateInternalJobId` (batchJobService.js) applied to the current
counter value. -/
def generateInternalJobId (n : Nat) : String :=
  "job-" ++ toString n

/-- Constant standing for the engine message of the TypeError raised when
the batch formatting maps over an absent prompts array. -/
def jsUndefinedMapMsg : String := "Cannot read properties of undefined (reading map)"

/-- The job record inserted before a provider submission is attempted. -/
def initialJobRecord (modelId method : String) (prompts : List String) (now : Nat) : Job :=
  { model := modelId
    method := method
    prompts := prompts
    status := "PENDING"
    fullName := none
    llmJobId := none
    result := none
    createdAt := now
    lastChecked := now
    successData := none
    usageData := none }

/-- The try-block of one provider submission: the key check, the request
formatting (which throws when the prompts array is absent), and the
batch-create call; `Except.ok` carries the provider job name and the
boolean records whether a network call was issued. -/
def submitOutcome (env : SubmitEnv) (promptsGiven : Bool) (modelId internalJobId : String) :
    Except String String × Bool :=
  if modelId = "gemini" then
    if ¬ env.googleKeySet then (Except.error "Gemini API key not configured.", false)
    else if ¬ promptsGiven then (Except.error jsUndefinedMapMsg, false)
    else
      match env.geminiCreate internalJobId with
      | ProviderCall.ok name => (Except.ok name, true)
      | ProviderCall.exn m => (Except.error m, true)
  else if modelId = "claude" then
    if ¬ env.anthropicKeySet then (Except.error "Anthropic API key not configured.", false)
    else if ¬ promptsGiven then (Except.error jsUndefinedMapMsg, false)
    else
      match env.claudeCreate internalJobId with
      | ProviderCall.ok name => (Except.ok name, true)
      | ProviderCall.exn m => (Except.error m, true)
  else
    (Except.error ("Model " ++ modelId ++ " not supported for batch text input."), false)

/-- The final job record and `submittedJobs` entry of one provider
submission. -/
def submitFinish (job₀ : Job) (internalJobId : String)
    (outcome : Except String String) : Job × SubmitEntry :=
  match outcome with
  | Except.ok name =>
    ({ job₀ with fullName := some name, llmJobId := some (jsSplitPop name) },
     SubmitEntry.pendingEntry internalJobId (jsSplitPop name))
  | Except.error e =>
    ({ job₀ with status := "FAILED", result := some ("Failed to submit job: " ++ e) },
     SubmitEntry.failedEntry internalJobId e)

/-- The per-model loop of `submitBatchJob` (determinized in list order;
each iteration inserts a PENDING record under a fresh id, attempts the
provider submission, and stores either the provider ids or the FAILED
state, collecting failures per model and never throwing them). -/
def submitLoop (env : SubmitEnv) (method : String) (prompts : Option (List String)) :
    List String → Nat → Store → List (String × SubmitEntry) → List CallTag →
    List (String × SubmitEntry) × Store × Nat × List CallTag
  | [], n, store, acc, calls => (acc, store, n, calls)
  | modelId :: rest, n, store, acc, calls =>
    let internalJobId := generateInternalJobId n
    let job₀ := initialJobRecord modelId method (prompts.getD []) env.now
    let outcome := submitOutcome env (prompts ≠ none) modelId internalJobId
    let fin := submitFinish job₀ internalJobId outcome.1
    let store₁ := setAssoc (setAssoc store internalJobId job₀) internalJobId fin.1
    let tags := if outcome.2 then [CallTag.create modelId internalJobId] else []
    submitLoop env method prompts rest (n + 1) store₁ (setAssoc acc modelId fin.2)
      (calls ++ tags)

/-- `submitBatchJob` (batchJobService.js): validate the model list and —
for text input — the prompts list synchronously, then run one
independent submission per requested model.  The quadruple carries the
`submittedJobs` map (or the validation error), the resulting store, the
next id counter and the provider calls issued. -/
def submitBatchJob (env : SubmitEnv) (store : Store) (nextId : Nat) (method : String)
    (prompts : Option (List String)) (models : Option (List String)) :
    Except String (List (String × SubmitEntry)) × Store × Nat × List CallTag :=
  match models with
  | none => (Except.error "At least one LLM must be selected.", store, nextId, [])
  | some ms =>
    if ms.length = 0 then (Except.error "At least one LLM must be selected.", store, nextId, [])
    else if method = "text_input" ∧ (prompts = none ∨ prompts = some []) then
      (Except.error "Prompts are required for text input method.", store, nextId, [])
    else
      let run := submitLoop env method prompts ms nextId store [] []
      (Except.ok run.1, run.2.1, run.2.2.1, run.2.2.2)

deriving instance DecidableEq for Except

/-- Concatenation of a list of rendered blocks. -/
def strJoin : List String → String
  | [] => ""
  | a :: as => a ++ strJoin as

/-- The blocks the Claude multi-prompt loop appends, numbered from `c`
(one block per successfully parsed line, in arrival order). -/
def claudeBlocksFrom (prompts : List String) : Nat → List ClaudeResultLine → List String
  | _, [] => []
  | c, l :: ls => claudeRenderBlock prompts c l :: claudeBlocksFrom prompts (c + 1) ls

/-- The usage object reached by `result?.message?.usage` on a parsed
Claude line. -/
def claudeLineUsage (line : ClaudeResultLine) : Option ClaudeUsage :=
  (line.result.bind ClaudeResultDetails.message).bind ClaudeInnerMsg.usage

/-- Whether a parsed Claude line carries all four usage fields. -/
def claudeUsageComplete (line : ClaudeResultLine) : Bool :=
  match claudeLineUsage line with
  | some u => u.input_tokens.isSome && u.cache_creation_input_tokens.isSome &&
      u.cache_read_input_tokens.isSome && u.output_tokens.isSome
  | none => false

/-- The input-token value a Claude line presents (0 when absent). -/
def claudeInputOf (line : ClaudeResultLine) : Int :=
  orZero ((claudeLineUsage line).bind ClaudeUsage.input_tokens)

/-- The cache-creation-token value a Claude line presents (0 when
absent). -/
def claudeCacheCreateOf (line : ClaudeResultLine) : Int :=
  orZero ((claudeLineUsage line).bind ClaudeUsage.cache_creation_input_tokens)

/-- The cache-read-token value a Claude line presents (0 when absent). -/
def claudeCacheReadOf (line : ClaudeResultLine) : Int :=
  orZero ((claudeLineUsage line).bind ClaudeUsage.cache_read_input_tokens)

/-- The output-token value a Claude line presents (0 when absent). -/
def claudeOutputOf (line : ClaudeResultLine) : Int :=
  orZero ((claudeLineUsage line).bind ClaudeUsage.output_tokens)

/-- The aggregate-usage contribution of one parsed JSONL line. -/
def lineAgg (o : JLineObj) : GemAggUsage :=
  ⟨linePromptTokens o.usageMeta, lineCandidatesTokens o.usageMeta,
   lineTotalTokens o.usageMeta, lineDetailsTokens o.usageMeta,
   lineThoughtsTokens o.usageMeta⟩

/-- The zero aggregate. -/
def GemAggUsage.zero : GemAggUsage := ⟨0, 0, 0, 0, 0⟩

/-- Field-wise sum of per-line aggregate contributions. -/
def aggSum : List JLineObj → GemAggUsage
  | [] => GemAggUsage.zero
  | o :: os => (lineAgg o).add (aggSum os)

/-- The non-empty lines of a trimmed JSONL document. -/
def jsonlLines (s : String) : List String :=
  (jsSplitNewline (jsTrim s)).filter (fun l => l ≠ "")

/-- The objects of the lines that JSON.parse accepts, in document
order. -/
def validJsonlObjs (parseJSON : String → Option JLineObj) (s : String) : List JLineObj :=
  (jsonlLines s).filterMap parseJSON

/-- The entry `parseJsonlResults` produces for one non-empty line. -/
def jsonlEntryOf (parseJSON : String → Option α) (l : String) : JsonlEntry α :=
  match parseJSON l with
  | some v => JsonlEntry.parsed v
  | none => JsonlEntry.parseErrorLine l

/-- The final job record and map entry of the provider at one loop
position, as a function of that provider's own outcome alone. -/
def submitResultAt (env : SubmitEnv) (method : String) (prompts : Option (List String))
    (modelId internalJobId : String) : Job × SubmitEntry :=
  submitFinish (initialJobRecord modelId method (prompts.getD []) env.now) internalJobId
    (submitOutcome env (prompts ≠ none) modelId internalJobId).1

/-- The `submittedJobs` entries the loop produces for a model list,
ids counted from `n`. -/
def submitEntriesFrom (env : SubmitEnv) (method : String) (prompts : Option (List String)) :
    List String → Nat → List (String × SubmitEntry)
  | [], _ => []
  | m :: rest, n =>
    (m, (submitResultAt env method prompts m (generateInternalJobId n)).2) ::
      submitEntriesFrom env method prompts rest (n + 1)

/-- A status oracle whose provider calls all fail (never reached by the
paths under test). -/
def probeStatusEnv : StatusEnv :=
  { geminiPoll := fun _ => ProviderCall.exn "unused"
    claudePoll := fun _ => ProviderCall.exn "unused"
    fileGeminiStatus := fun _ => ProviderCall.exn "unused"
    fileOpenaiStatus := fun _ => ProviderCall.exn "unused"
    now := 7 }

/-- A result oracle whose provider calls all fail (never reached by the
paths under test). -/
def probeResultEnv : ResultEnv :=
  { geminiLroFetch := fun _ => ProviderCall.exn "unused"
    claudeInfoFetch := fun _ => ProviderCall.exn "unused"
    claudeResultsFetch := fun _ => ProviderCall.exn "unused"
    parseClaudeLine := fun _ => none
    fileGeminiStatus := fun _ => ProviderCall.exn "unused"
    fileGeminiDownload := fun _ => ProviderCall.exn "unused"
    fileOpenaiDownload := fun _ => ProviderCall.exn "unused"
    parseJsonLine := fun _ => none
    now := 7 }

/-- A submission oracle: both keys configured, the Gemini create call
succeeds, the Claude create call throws. -/
def probeSubmitEnv : SubmitEnv :=
  { googleKeySet := true
    anthropicKeySet := true
    geminiCreate := fun _ => ProviderCall.ok "operations/batch-7"
    claudeCreate := fun _ => ProviderCall.exn "provider rejected the batch"
    now := 3 }

/-- An LRO payload with no inline responses. -/
def probeLroEmpty : GeminiLro := ⟨false, none, none, none, none⟩

/-- A COMPLETED Gemini job holding a cached success payload and a
previously written result string. -/
def c1CompletedJob : Job :=
  { model := "gemini"
    method := "text_input"
    prompts := ["p1", "p2"]
    status := "COMPLETED"
    fullName := some "operations/op9"
    llmJobId := some "op9"
    result := some "orig-result"
    createdAt := 0
    lastChecked := 5
    successData := some (SuccessData.gLro probeLroEmpty)
    usageData := none }

/-- A FAILED job with a cached diagnostic result. -/
def probeFailedJob : Job :=
  { c1CompletedJob with
      status := "FAILED"
      result := some "Failed to submit job: boom"
      successData := none }

/-- A PENDING job that has not reached a terminal state. -/
def probePendingJob : Job :=
  { c1CompletedJob with status := "PENDING", result := none, successData := none }

/-- An inline response carrying positional key request-2, listed first in
the payload. -/
def c2ItemKey2 : GeminiInlineItem :=
  ⟨some ⟨some "request-2"⟩, some ⟨[⟨some ⟨[⟨some "ansB"⟩]⟩⟩], none, "rawA"⟩, none⟩

/-- An inline response carrying positional key request-1, listed second
in the payload. -/
def c2ItemKey1 : GeminiInlineItem :=
  ⟨some ⟨some "request-1"⟩, some ⟨[⟨some ⟨[⟨some "ansA"⟩]⟩⟩], none, "rawB"⟩, none⟩

/-- A completed LRO whose inline responses arrive in reverse key order. -/
def c2LroSwapped : GeminiLro :=
  ⟨true, none, some ⟨some ⟨[c2ItemKey2, c2ItemKey1]⟩⟩, none, none⟩

/-- A JSON.parse oracle for two Claude result lines: `l1` succeeded with
a complete usage object, `l2` errored with no message (hence no usage
fields). -/
def c3Parse : String → Option ClaudeResultLine := fun l =>
  if l = "l1" then
    some ⟨some "request-1",
      some ⟨some "succeeded", some ⟨[⟨some "ok"⟩], some ⟨some 5, some 0, some 0, some 7⟩⟩,
        none, "raw1"⟩, none⟩
  else if l = "l2" then
    some ⟨some "request-2", some ⟨some "errored", none, some "errobj", "raw2"⟩, none⟩
  else none

/-- A JSON.parse oracle accepting the two lines `good1` and `good2`. -/
def c5Parse : String → Option Nat := fun l =>
  if l = "good1" then some 1 else if l = "good2" then some 2 else none

/-- A single inline response with key request-1 and a response text. -/
def c6Item : GeminiInlineItem :=
  ⟨some ⟨some "request-1"⟩, some ⟨[⟨some ⟨[⟨some "joint answer"⟩]⟩⟩], none, "raw6"⟩, none⟩

/-- A completed LRO holding exactly the one inline response of a
single-conversation batch. -/
def c6Lro : GeminiLro := ⟨true, none, some ⟨some ⟨[c6Item]⟩⟩, none, none⟩

/-- A parsed single-chat Claude result object. -/
def c6ClaudeLine : ClaudeResultLine :=
  ⟨some "request-1",
    some ⟨some "succeeded", some ⟨[⟨some "joint answer"⟩], some ⟨some 1, some 0, some 0, some 2⟩⟩,
      none, "raw6c"⟩, none⟩

/-- The successfully parsed lines of a Claude results document, in
arrival order (blank lines and lines JSON.parse rejects are skipped). -/
def claudeValidLines (parseLine : String → Option ClaudeResultLine) (s : String) :
    List ClaudeResultLine :=
  ((jsSplitNewline s).filter (fun line => jsTrim line ≠ "")).filterMap parseLine

/-- A sample OpenAI batch status payload. -/
def probeOpenaiResp : OpenaiBatchResp := ⟨some "completed", some "file-9", some 123⟩

/-- A status oracle whose OpenAI file-upload poll succeeds. -/
def probeStatusEnvFileOk : StatusEnv :=
  { probeStatusEnv with fileOpenaiStatus := fun _ => ProviderCall.ok probeOpenaiResp }

/-- Lookup after an assignment: the assigned key reads the new value,
every other key is untouched. -/
theorem getAssoc_setAssoc (l : List (String × α)) (k k' : String) (v : α) :
    getAssoc (setAssoc l k v) k' = if k = k' then some v else getAssoc l k' := by
  induction l with
  | nil => by_cases h : k = k' <;> simp [getAssoc, setAssoc, h]
  | cons hd t ih =>
    obtain ⟨k₀, v₀⟩ := hd
    by_cases h0 : k₀ = k
    · subst h0
      by_cases h1 : k₀ = k' <;> simp [getAssoc, setAssoc, h1]
    · simp only [setAssoc, if_neg h0]
      by_cases h1 : k₀ = k'
      · subst h1
        have hkk : ¬ k = k₀ := fun h => h0 h.symm
        simp [getAssoc, hkk]
      · simp [getAssoc, h1, ih]

/-- Assigning an absent key appends the binding. -/
theorem setAssoc_eq_append (l : List (String × α)) (k : String) (v : α)
    (h : getAssoc l k = none) : setAssoc l k v = l ++ [(k, v)] := by
  induction l with
  | nil => simp [setAssoc]
  | cons hd t ih =>
    obtain ⟨k₀, v₀⟩ := hd
    by_cases h0 : k₀ = k
    · simp [getAssoc, h0] at h
    · simp [getAssoc, h0] at h
      simp [setAssoc, h0, ih h]

/-- Lookup across an append searches the left list first. -/
theorem getAssoc_append (a b : List (String × α)) (k : String) :
    getAssoc (a ++ b) k = match getAssoc a k with
      | some v => some v
      | none => getAssoc b k := by
  induction a with
  | nil => simp [getAssoc]
  | cons hd t ih =>
    obtain ⟨k₀, v₀⟩ := hd
    by_cases h0 : k₀ = k <;> simp [getAssoc, h0, ih]

theorem jobStatusStep_terminal (env : StatusEnv) (id : String) (job : Job)
    (h : job.status = "COMPLETED" ∨ job.status = "FAILED") :
    jobStatusStep env id (some job) =
      (some job, StatusEntry.statusInfo job.status job.result job.lastChecked, []) := by
  simp [jobStatusStep, h]

theorem jobResultStep_skip (env : ResultEnv) (single : Bool) (id : String) (job : Job)
    (h : job.status ≠ "COMPLETED") :
    jobResultStep env single id (some job) = (some job, none, []) := by
  simp [jobResultStep, h]

theorem jobStatusStep_keys (env : StatusEnv) (id : String) (oj : Option Job) :
    ∀ t ∈ (jobStatusStep env id oj).2.2, CallTag.key t = id := by
  intro t ht
  rcases oj with _ | job
  · simp [jobStatusStep] at ht
  · by_cases hterm : job.status = "COMPLETED" ∨ job.status = "FAILED"
    · simp [jobStatusStep, hterm] at ht
    · simp only [jobStatusStep, if_neg hterm] at ht
      by_cases hg : job.model = "gemini"
      · rw [if_pos hg] at ht
        by_cases hllm : jsTruthyStr job.llmJobId = true
        · rw [if_neg (not_not_intro hllm)] at ht
          rcases hpoll : env.geminiPoll id with lro | m <;> rw [hpoll] at ht <;>
            simp at ht <;> simp [ht, CallTag.key]
        · rw [if_pos hllm] at ht
          simp at ht
      · rw [if_neg hg] at ht
        by_cases hc : job.model = "claude"
        · rw [if_pos hc] at ht
          by_cases hllm : jsTruthyStr job.llmJobId = true
          · rw [if_neg (not_not_intro hllm)] at ht
            rcases hpoll : env.claudePoll id with info | m <;> rw [hpoll] at ht <;>
              simp at ht <;> simp [ht, CallTag.key]
          · rw [if_pos hllm] at ht
            simp at ht
        · rw [if_neg hc] at ht
          simp at ht

theorem jobResultStep_keys (env : ResultEnv) (single : Bool) (id : String) (oj : Option Job) :
    ∀ t ∈ (jobResultStep env single id oj).2.2, CallTag.key t = id := by
  intro t ht
  rcases oj with _ | job
  · simp [jobResultStep] at ht
  · by_cases hterm : job.status ≠ "COMPLETED"
    · simp [jobResultStep, hterm] at ht
    · simp only [jobResultStep, if_neg hterm] at ht
      by_cases hg : job.model = "gemini"
      · rw [if_pos hg] at ht
        by_cases hllm : jsTruthyStr job.llmJobId = true
        · rw [if_neg (not_not_intro hllm)] at ht
          by_cases hsd : jsTruthySuccess job.successData = true
          · rw [if_pos hsd] at ht
            simp at ht
          · rw [if_neg hsd] at ht
            rcases hfetch : env.geminiLroFetch id with lro | m <;> rw [hfetch] at ht <;>
              simp at ht <;> simp [ht, CallTag.key]
        · rw [if_pos hllm] at ht
          simp at ht
      · rw [if_neg hg] at ht
        by_cases hc : job.model = "claude"
        · rw [if_pos hc] at ht
          by_cases hllm : jsTruthyStr job.llmJobId = true
          · rw [if_neg (not_not_intro hllm)] at ht
            by_cases hsd : jsTruthySuccess job.successData = true
            · rw [if_pos hsd] at ht
              rcases hres : getClaudeJobResult (env.claudeResultsFetch id)
                  env.parseClaudeLine job.prompts single with ⟨msg, tot⟩ | m <;>
                rw [hres] at ht <;> simp at ht <;> simp [ht, CallTag.key]
            · rw [if_neg hsd] at ht
              rcases hfetch : env.claudeInfoFetch id with info | m <;>
                rw [hfetch] at ht <;> dsimp only at ht
              · by_cases hend : jsTruthyStr info.ended_at = true ∧
                    info.processing_status = some "ended"
                · rw [if_pos hend] at ht
                  rcases hres : getClaudeJobResult (env.claudeResultsFetch id)
                      env.parseClaudeLine job.prompts single with ⟨msg, tot⟩ | m <;>
                    rw [hres] at ht <;> simp at ht <;>
                      first
                        | (rcases ht with ht | ht <;> simp [ht, CallTag.key])
                        | simp [ht, CallTag.key]
                · rw [if_neg hend] at ht
                  simp at ht
                  simp [ht, CallTag.key]
              · simp at ht
                simp [ht, CallTag.key]
          · rw [if_pos hllm] at ht
            simp at ht
        · rw [if_neg hc] at ht
          simp at ht

theorem statusRun_cons (env : StatusEnv) (id' : String) (rest : List String)
    (store : Store) (acc : List (String × StatusEntry)) (calls : List CallTag) :
    statusRun env (id' :: rest) store acc calls =
      statusRun env rest
        (match (jobStatusStep env id' (getAssoc store id')).1 with
          | some j => setAssoc store id' j
          | none => store)
        (setAssoc acc id' (jobStatusStep env id' (getAssoc store id')).2.1)
        (calls ++ (jobStatusStep env id' (getAssoc store id')).2.2) := rfl

theorem statusRun_frame (env : StatusEnv) (id : String) (job : Job)
    (hterm : job.status = "COMPLETED" ∨ job.status = "FAILED") :
    ∀ (ids : List String) (store : Store) (acc : List (String × StatusEntry))
      (calls : List CallTag),
      getAssoc store id = some job →
      getAssoc (statusRun env ids store acc calls).2.1 id = some job ∧
      getAssoc (statusRun env ids store acc calls).1 id =
        (if id ∈ ids then some (StatusEntry.statusInfo job.status job.result job.lastChecked)
         else getAssoc acc id) ∧
      (∀ t ∈ (statusRun env ids store acc calls).2.2, t ∈ calls ∨ CallTag.key t ≠ id) := by
  intro ids
  induction ids with
  | nil =>
    intro store acc calls hst
    exact ⟨hst, by simp [statusRun], fun t ht => Or.inl ht⟩
  | cons id' rest ih =>
    intro store acc calls hst
    rw [statusRun_cons]
    by_cases hid : id' = id
    · subst hid
      rw [hst, jobStatusStep_terminal env id' job hterm]
      have hst' : getAssoc (setAssoc store id' job) id' = some job := by
        simp [getAssoc_setAssoc]
      obtain ⟨h1, h2, h3⟩ := ih (setAssoc store id' job)
        (setAssoc acc id' (StatusEntry.statusInfo job.status job.result job.lastChecked))
        (calls ++ []) hst'
      refine ⟨h1, ?_, ?_⟩
      · rw [h2]
        by_cases hmem : id' ∈ rest <;> simp [hmem, getAssoc_setAssoc]
      · intro t ht
        rcases h3 t ht with h | h
        · simp at h
          exact Or.inl h
        · exact Or.inr h
    · have hs1 : getAssoc (match (jobStatusStep env id' (getAssoc store id')).1 with
          | some j => setAssoc store id' j
          | none => store) id = some job := by
        cases hj : (jobStatusStep env id' (getAssoc store id')).1 <;>
          simp [getAssoc_setAssoc, hid, hst]
      obtain ⟨h1, h2, h3⟩ := ih _
        (setAssoc acc id' (jobStatusStep env id' (getAssoc store id')).2.1)
        (calls ++ (jobStatusStep env id' (getAssoc store id')).2.2) hs1
      refine ⟨h1, Eq.trans h2 ?_, ?_⟩
      · by_cases hmem : id ∈ rest
        · simp [hmem, List.mem_cons]
        · have hne : ¬ id ∈ id' :: rest := by
            simp only [List.mem_cons, not_or]
            exact ⟨fun hcon => absurd hcon.symm hid, hmem⟩
          simp [hmem, hne, getAssoc_setAssoc, hid]
      · intro t ht
        rcases h3 t ht with h | h
        · rcases List.mem_append.mp h with h' | h'
          · exact Or.inl h'
          · exact Or.inr (by
              rw [jobStatusStep_keys env id' _ t h']
              exact hid)
        · exact Or.inr h

theorem resultRun_cons (env : ResultEnv) (single : Bool) (id' : String) (rest : List String)
    (store : Store) (acc : List (String × ResultEntry)) (calls : List CallTag) :
    resultRun env single (id' :: rest) store acc calls =
      resultRun env single rest
        (match (jobResultStep env single id' (getAssoc store id')).1 with
          | some j => setAssoc store id' j
          | none => store)
        (match (jobResultStep env single id' (getAssoc store id')).2.1 with
          | some e => setAssoc acc id' e
          | none => acc)
        (calls ++ (jobResultStep env single id' (getAssoc store id')).2.2) := rfl

theorem resultRun_frame (env : ResultEnv) (single : Bool) (id : String) (job : Job)
    (hterm : job.status ≠ "COMPLETED") :
    ∀ (ids : List String) (store : Store) (acc : List (String × ResultEntry))
      (calls : List CallTag),
      getAssoc store id = some job →
      getAssoc (resultRun env single ids store acc calls).2.1 id = some job ∧
      getAssoc (resultRun env single ids store acc calls).1 id = getAssoc acc id ∧
      (∀ t ∈ (resultRun env single ids store acc calls).2.2, t ∈ calls ∨ CallTag.key t ≠ id) := by
  intro ids
  induction ids with
  | nil =>
    intro store acc calls hst
    exact ⟨hst, rfl, fun t ht => Or.inl ht⟩
  | cons id' rest ih =>
    intro store acc calls hst
    rw [resultRun_cons]
    by_cases hid : id' = id
    · subst hid
      rw [hst, jobResultStep_skip env single id' job hterm]
      have hst' : getAssoc (setAssoc store id' job) id' = some job := by
        simp [getAssoc_setAssoc]
      obtain ⟨h1, h2, h3⟩ := ih (setAssoc store id' job) acc (calls ++ []) hst'
      refine ⟨h1, h2, ?_⟩
      intro t ht
      rcases h3 t ht with h | h
      · simp at h
        exact Or.inl h
      · exact Or.inr h
    · have hs1 : getAssoc (match (jobResultStep env single id' (getAssoc store id')).1 with
          | some j => setAssoc store id' j
          | none => store) id = some job := by
        cases hj : (jobResultStep env single id' (getAssoc store id')).1 <;>
          simp [getAssoc_setAssoc, hid, hst]
      have ha1 : getAssoc (match (jobResultStep env single id' (getAssoc store id')).2.1 with
          | some e => setAssoc acc id' e
          | none => acc) id = getAssoc acc id := by
        cases he : (jobResultStep env single id' (getAssoc store id')).2.1 <;>
          simp [getAssoc_setAssoc, hid]
      obtain ⟨h1, h2, h3⟩ := ih _ _
        (calls ++ (jobResultStep env single id' (getAssoc store id')).2.2) hs1
      refine ⟨h1, Eq.trans h2 ha1, ?_⟩
      intro t ht
      rcases h3 t ht with h | h
      · rcases List.mem_append.mp h with h' | h'
        · exact Or.inl h'
        · exact Or.inr (by
            rw [jobResultStep_keys env single id' _ t h']
            exact hid)
      · exact Or.inr h

/-- C1 (amended): once a job is terminal (COMPLETED or FAILED), a
non-file-upload getBatchJobStatus call answers it from the cache — the
returned entry repeats the stored status, result and lastChecked, the
job record is not mutated, and no provider call is issued for that job;
and getBatchJobResult leaves a FAILED job completely untouched: no entry
for it, no mutation, no provider call.  (The original claim also forbade
any later getBatchJobResult call from overwriting a COMPLETED job's
result, which the code does do: see the counterexample.) -/
theorem c1_terminal_state_cached :
    (∀ (env : StatusEnv) (store : Store) (ids : List String) (modelId id : String) (job : Job),
      getAssoc store id = some job →
      (job.status = "COMPLETED" ∨ job.status = "FAILED") →
      id ∈ ids →
      ∃ entries store' calls,
        getBatchJobStatus env store (some ids) false modelId =
          (Except.ok (StatusOut.updates entries), store', calls) ∧
        getAssoc entries id =
          some (StatusEntry.statusInfo job.status job.result job.lastChecked) ∧
        getAssoc store' id = some job ∧
        ∀ t ∈ calls, CallTag.key t ≠ id) ∧
    (∀ (env : ResultEnv) (store : Store) (ids : List String) (single : Bool)
        (modelId id : String) (job : Job),
      getAssoc store id = some job →
      job.status = "FAILED" →
      id ∈ ids →
      ∃ entries store' calls,
        getBatchJobResult env store (some ids) single false modelId =
          (Except.ok (ResultOut.updates entries), store', calls) ∧
        getAssoc entries id = none ∧
        getAssoc store' id = some job ∧
        ∀ t ∈ calls, CallTag.key t ≠ id) := by
  constructor
  · intro env store ids modelId id job hst hterm hmem
    have hnil : ids ≠ [] := fun h => by subst h; exact absurd hmem (List.not_mem_nil id)
    obtain ⟨h1, h2, h3⟩ := statusRun_frame env id job hterm ids store [] [] hst
    refine ⟨(statusRun env ids store [] []).1, (statusRun env ids store [] []).2.1,
      (statusRun env ids store [] []).2.2, ?_, ?_, h1, ?_⟩
    · simp [getBatchJobStatus, List.length_eq_zero, hnil]
    · rw [h2]
      simp [hmem]
    · intro t ht
      rcases h3 t ht with h | h
      · exact absurd h (List.not_mem_nil t)
      · exact h
  · intro env store ids single modelId id job hst hfail hmem
    have hnil : ids ≠ [] := fun h => by subst h; exact absurd hmem (List.not_mem_nil id)
    have hterm : job.status ≠ "COMPLETED" := by
      rw [hfail]
      decide
    obtain ⟨h1, h2, h3⟩ := resultRun_frame env single id job hterm ids store [] [] hst
    refine ⟨(resultRun env single ids store [] []).1, (resultRun env single ids store [] []).2.1,
      (resultRun env single ids store [] []).2.2, ?_, ?_, h1, ?_⟩
    · simp [getBatchJobResult, List.length_eq_zero, hnil]
    · rw [h2]
      rfl
    · intro t ht
      rcases h3 t ht with h | h
      · exact absurd h (List.not_mem_nil t)
      · exact h

/-- C1 (counterexample): a job that reached COMPLETED with a cached
success payload and the stored result string "orig-result" has that
result overwritten by a later getBatchJobResult call, which re-renders
the cached payload — contradicting the claim that no later call
overwrites a terminal job's result. -/
theorem c1_result_overwritten_on_completed :
    c1CompletedJob.status = "COMPLETED" ∧
    c1CompletedJob.result = some "orig-result" ∧
    ((getAssoc (getBatchJobResult probeResultEnv [("job-1", c1CompletedJob)]
        (some ["job-1"]) false false "gemini").2.1 "job-1").map Job.result) =
      some (some "Gemini batch job SUCCEEDED, but no inline responses found.") ∧
    "orig-result" ≠ "Gemini batch job SUCCEEDED, but no inline responses found." := by
  refine ⟨rfl, rfl, by decide, by decide⟩

/-- C1 (witness): the amended theorem applied to a FAILED job queried by
both calls. -/
theorem c1_terminal_state_cached_witness :
    (∃ entries store' calls,
      getBatchJobStatus probeStatusEnv [("job-1", probeFailedJob)] (some ["job-1"])
          false "gemini" =
        (Except.ok (StatusOut.updates entries), store', calls) ∧
      getAssoc entries "job-1" =
        some (StatusEntry.statusInfo probeFailedJob.status probeFailedJob.result
          probeFailedJob.lastChecked) ∧
      getAssoc store' "job-1" = some probeFailedJob ∧
      ∀ t ∈ calls, CallTag.key t ≠ "job-1") ∧
    (∃ entries store' calls,
      getBatchJobResult probeResultEnv [("job-1", probeFailedJob)] (some ["job-1"])
          false false "gemini" =
        (Except.ok (ResultOut.updates entries), store', calls) ∧
      getAssoc entries "job-1" = none ∧
      getAssoc store' "job-1" = some probeFailedJob ∧
      ∀ t ∈ calls, CallTag.key t ≠ "job-1") :=
  ⟨c1_terminal_state_cached.1 probeStatusEnv [("job-1", probeFailedJob)] ["job-1"]
      "gemini" "job-1" probeFailedJob (by decide) (by decide) (by decide),
   c1_terminal_state_cached.2 probeResultEnv [("job-1", probeFailedJob)] ["job-1"]
      false "gemini" "job-1" probeFailedJob (by decide) (by decide) (by decide)⟩

/-- C8 (amended): getBatchJobResult on a known job whose last known
status is not COMPLETED skips the job entirely: the returned mapping
carries no entry for it (rather than its current state), no field of the
record is mutated, and no provider call is issued for it. -/
theorem c8_nonterminal_result_noop
    (env : ResultEnv) (store : Store) (ids : List String) (single : Bool)
    (modelId id : String) (job : Job)
    (hst : getAssoc store id = some job)
    (hne : job.status ≠ "COMPLETED")
    (hmem : id ∈ ids) :
    ∃ entries store' calls,
      getBatchJobResult env store (some ids) single false modelId =
        (Except.ok (ResultOut.updates entries), store', calls) ∧
      getAssoc entries id = none ∧
      getAssoc store' id = some job ∧
      ∀ t ∈ calls, CallTag.key t ≠ id := by
  have hnil : ids ≠ [] := fun h => by subst h; exact absurd hmem (List.not_mem_nil id)
  obtain ⟨h1, h2, h3⟩ := resultRun_frame env single id job hne ids store [] [] hst
  refine ⟨(resultRun env single ids store [] []).1, (resultRun env single ids store [] []).2.1,
    (resultRun env single ids store [] []).2.2, ?_, ?_, h1, ?_⟩
  · simp [getBatchJobResult, List.length_eq_zero, hnil]
  · rw [h2]
    rfl
  · intro t ht
    rcases h3 t ht with h | h
    · exact absurd h (List.not_mem_nil t)
    · exact h

/-- C8 (counterexample): a PENDING job queried through getBatchJobResult
receives no entry at all in the returned mapping — the call does not
return the job's current (unfinished) status and result, contradicting
the claim. -/
theorem c8_no_entry_for_pending_job :
    probePendingJob.status = "PENDING" ∧
    (getBatchJobResult probeResultEnv [("job-1", probePendingJob)] (some ["job-1"])
        false false "gemini").1 = Except.ok (ResultOut.updates []) := by
  refine ⟨rfl, by decide⟩

/-- C8 (witness): the amended theorem applied to a PENDING job. -/
theorem c8_nonterminal_result_noop_witness :
    ∃ entries store' calls,
      getBatchJobResult probeResultEnv [("job-1", probePendingJob)] (some ["job-1"])
          false false "gemini" =
        (Except.ok (ResultOut.updates entries), store', calls) ∧
      getAssoc entries "job-1" = none ∧
      getAssoc store' "job-1" = some probePendingJob ∧
      ∀ t ∈ calls, CallTag.key t ≠ "job-1" :=
  c8_nonterminal_result_noop probeResultEnv [("job-1", probePendingJob)] ["job-1"]
    false "gemini" "job-1" probePendingJob (by decide) (by decide) (by decide)

/-- C9: the three validation errors are raised synchronously: a missing
or empty model list, and (for text input) a missing or empty prompts
list, make submitBatchJob return the validation error with the store,
the id counter and the (empty) call log untouched — before any insertion
or network call; likewise a missing or empty job id list makes
getBatchJobStatus return its validation error with no store change and
no call. -/
theorem c9_validation_synchronous :
    (∀ (env : SubmitEnv) (store : Store) (nextId : Nat) (method : String)
        (prompts : Option (List String)),
      submitBatchJob env store nextId method prompts none =
        (Except.error "At least one LLM must be selected.", store, nextId, []) ∧
      submitBatchJob env store nextId method prompts (some []) =
        (Except.error "At least one LLM must be selected.", store, nextId, [])) ∧
    (∀ (env : SubmitEnv) (store : Store) (nextId : Nat) (prompts : Option (List String))
        (ms : List String),
      ms ≠ [] →
      (prompts = none ∨ prompts = some []) →
      submitBatchJob env store nextId "text_input" prompts (some ms) =
        (Except.error "Prompts are required for text input method.", store, nextId, [])) ∧
    (∀ (env : StatusEnv) (store : Store) (isFileUpload : Bool) (modelId : String),
      getBatchJobStatus env store none isFileUpload modelId =
        (Except.error "No job IDs provided.", store, []) ∧
      getBatchJobStatus env store (some []) isFileUpload modelId =
        (Except.error "No job IDs provided.", store, [])) := by
  refine ⟨?_, ?_, ?_⟩
  · intro env store nextId method prompts
    exact ⟨rfl, by simp [submitBatchJob]⟩
  · intro env store nextId prompts ms hms hp
    simp [submitBatchJob, List.length_eq_zero, hms, hp]
  · intro env store isFileUpload modelId
    exact ⟨rfl, by simp [getBatchJobStatus]⟩

/-- C9 (witness): the validation theorem applied at concrete inputs. -/
theorem c9_validation_synchronous_witness :
    submitBatchJob probeSubmitEnv [] 1 "text_input" (some []) (some ["gemini"]) =
      (Except.error "Prompts are required for text input method.", [], 1, []) :=
  (c9_validation_synchronous.2.1 probeSubmitEnv [] 1 (some []) ["gemini"]
    (by decide) (Or.inr rfl))

/-- C10: when the file-upload flag is set, getBatchJobStatus and
getBatchJobResult consult only the first element of the job id list —
replacing the remaining ids changes nothing — and (OpenAI branch) the
returned mapping carries exactly one entry, keyed by that first id, so
additional ids receive no entry. -/
theorem c10_file_branch_first_id_only :
    (∀ (env : StatusEnv) (store : Store) (id : String) (rest rest' : List String),
      getBatchJobStatus env store (some (id :: rest)) true "gemini" =
        getBatchJobStatus env store (some (id :: rest')) true "gemini" ∧
      getBatchJobStatus env store (some (id :: rest)) true "openai" =
        getBatchJobStatus env store (some (id :: rest')) true "openai") ∧
    (∀ (env : ResultEnv) (store : Store) (single : Bool) (id : String)
        (rest rest' : List String),
      getBatchJobResult env store (some (id :: rest)) single true "gemini" =
        getBatchJobResult env store (some (id :: rest')) single true "gemini" ∧
      getBatchJobResult env store (some (id :: rest)) single true "openai" =
        getBatchJobResult env store (some (id :: rest')) single true "openai") ∧
    (∀ (env : StatusEnv) (store : Store) (id : String) (rest : List String)
        (resp : OpenaiBatchResp),
      id ≠ "" →
      env.fileOpenaiStatus id = ProviderCall.ok resp →
      (getBatchJobStatus env store (some (id :: rest)) true "openai").1 =
        Except.ok (StatusOut.fileOpenai [(id, resp)])) := by
  refine ⟨?_, ?_, ?_⟩
  · intro env store id rest rest'
    exact ⟨by simp [getBatchJobStatus], by simp [getBatchJobStatus]⟩
  · intro env store single id rest rest'
    exact ⟨by simp [getBatchJobResult], by simp [getBatchJobResult]⟩
  · intro env store id rest resp hid hok
    simp [getBatchJobStatus, hid, hok]

/-- C10 (witness): the file-branch theorem applied at concrete inputs;
the second id "op-2" is ignored and receives no entry. -/
theorem c10_file_branch_first_id_only_witness :
    (getBatchJobStatus probeStatusEnvFileOk [] (some ["op-1", "op-2"]) true "openai").1 =
      Except.ok (StatusOut.fileOpenai [("op-1", probeOpenaiResp)]) :=
  c10_file_branch_first_id_only.2.2 probeStatusEnvFileOk [] "op-1" ["op-2"]
    probeOpenaiResp (by decide) rfl

/-- C7: the frontend maps an OpenAI-reported batch status string onto the
normalized enum by (case-insensitive) substring matching: a status
containing "completed" maps to COMPLETED; otherwise one containing
"failed" maps to FAILED; otherwise one containing "running" or
"in_progress" maps to RUNNING; any other status maps to PENDING. -/
theorem c7_status_substring_mapping (s : String) :
    (jsIncludes (jsToLowerCase s) "completed" = true →
      bulkOpenaiStatusMap s = "COMPLETED") ∧
    (jsIncludes (jsToLowerCase s) "completed" = false →
      jsIncludes (jsToLowerCase s) "failed" = true →
      bulkOpenaiStatusMap s = "FAILED") ∧
    (jsIncludes (jsToLowerCase s) "completed" = false →
      jsIncludes (jsToLowerCase s) "failed" = false →
      (jsIncludes (jsToLowerCase s) "running" = true ∨
        jsIncludes (jsToLowerCase s) "in_progress" = true) →
      bulkOpenaiStatusMap s = "RUNNING") ∧
    (jsIncludes (jsToLowerCase s) "completed" = false →
      jsIncludes (jsToLowerCase s) "failed" = false →
      jsIncludes (jsToLowerCase s) "running" = false →
      jsIncludes (jsToLowerCase s) "in_progress" = false →
      bulkOpenaiStatusMap s = "PENDING") := by
  refine ⟨?_, ?_, ?_, ?_⟩
  · intro h1
    simp [bulkOpenaiStatusMap, h1]
  · intro h1 h2
    simp [bulkOpenaiStatusMap, h1, h2]
  · intro h1 h2 h3
    rcases h3 with h3 | h3 <;> by_cases hr : jsIncludes (jsToLowerCase s) "running" = true <;>
      simp [bulkOpenaiStatusMap, h1, h2, h3, hr] <;> simp_all
  · intro h1 h2 h3 h4
    simp [bulkOpenaiStatusMap, h1, h2, h3, h4]

/-- C7 (witness): the mapping theorem applied to one status string of
each class. -/
theorem c7_status_substring_mapping_witness :
    bulkOpenaiStatusMap "completed" = "COMPLETED" ∧
    bulkOpenaiStatusMap "Failed_validation" = "FAILED" ∧
    bulkOpenaiStatusMap "in_progress" = "RUNNING" ∧
    bulkOpenaiStatusMap "queued" = "PENDING" :=
  ⟨(c7_status_substring_mapping "completed").1 (by decide),
   (c7_status_substring_mapping "Failed_validation").2.1 (by decide) (by decide),
   (c7_status_substring_mapping "in_progress").2.2.1 (by decide) (by decide)
     (Or.inr (by decide)),
   (c7_status_substring_mapping "queued").2.2.2 (by decide) (by decide) (by decide)
     (by decide)⟩

/-- `parseJsonlResults` maps each non-empty line of the trimmed document
to its entry — a parsed value or a per-line error record — in document
order. -/
theorem parseJsonlResults_characterization (parse : String → Option α) (s : String) :
    parseJsonlResults parse s = (jsonlLines s).map (jsonlEntryOf parse) := by
  unfold parseJsonlResults jsonlLines
  have hf : (fun line => if line ≠ "" then
        match parse line with
        | some v => some (JsonlEntry.parsed v)
        | none => some (JsonlEntry.parseErrorLine line)
      else none) =
      (fun line => if line ≠ "" then some (jsonlEntryOf parse line) else none) := by
    funext l
    by_cases hl : l = ""
    · subst hl
      rfl
    · rw [if_pos hl, if_pos hl]
      cases hp : parse l <;> simp [jsonlEntryOf, hp]
  rw [hf, List.filterMap_map, Function.id_comp]
  generalize jsSplitNewline (jsTrim s) = ls
  induction ls with
  | nil => rfl
  | cons l t ih =>
    simp only [ne_eq, ite_not, decide_not] at ih
    by_cases hl : l = "" <;> simp [hl, List.filterMap_cons, ih]

/-- `parseJsonlResults` on a document of M well-formed lines and one
malformed line yields M+1 entries — M parsed entries plus one error
entry — with the M valid parses preserved in order. -/
theorem parseJsonlResults_malformed_isolated (parse : String → Option α) (s : String) (M : Nat)
    (hgood : (jsonlLines s).countP (fun l => (parse l).isSome) = M)
    (hbad : (jsonlLines s).countP (fun l => (parse l).isNone) = 1) :
    (parseJsonlResults parse s).length = M + 1 ∧
    (parseJsonlResults parse s).countP (fun e => match e with
      | JsonlEntry.parsed _ => true
      | JsonlEntry.parseErrorLine _ => false) = M ∧
    (parseJsonlResults parse s).countP (fun e => match e with
      | JsonlEntry.parsed _ => false
      | JsonlEntry.parseErrorLine _ => true) = 1 ∧
    (parseJsonlResults parse s).filterMap (fun e => match e with
      | JsonlEntry.parsed v => some v
      | JsonlEntry.parseErrorLine _ => none) = (jsonlLines s).filterMap parse := by
  rw [parseJsonlResults_characterization]
  have hcg : ∀ l ∈ jsonlLines s,
      ((fun e => match e with
        | JsonlEntry.parsed _ => true
        | JsonlEntry.parseErrorLine _ => false) ∘ jsonlEntryOf parse) l = true ↔
      (parse l).isSome = true := by
    intro l _
    simp only [Function.comp, jsonlEntryOf]
    cases parse l <;> simp
  have hcb : ∀ l ∈ jsonlLines s,
      ((fun e => match e with
        | JsonlEntry.parsed _ => false
        | JsonlEntry.parseErrorLine _ => true) ∘ jsonlEntryOf parse) l = true ↔
      (parse l).isNone = true := by
    intro l _
    simp only [Function.comp, jsonlEntryOf]
    cases parse l <;> simp
  refine ⟨?_, ?_, ?_, ?_⟩
  · rw [List.length_map]
    calc (jsonlLines s).length
        = (jsonlLines s).countP (fun l => (parse l).isSome) +
          (jsonlLines s).countP (fun l => decide ¬((parse l).isSome = true)) :=
          List.length_eq_countP_add_countP _ _
      _ = M + 1 := by
          rw [hgood]
          congr 1
          rw [← hbad]
          refine List.countP_congr (fun l _ => ?_)
          cases parse l <;> simp
  · rw [List.countP_map, List.countP_congr hcg, hgood]
  · rw [List.countP_map, List.countP_congr hcb, hbad]
  · rw [List.filterMap_map]
    congr 1
    funext l
    simp only [Function.comp, jsonlEntryOf]
    cases parse l <;> simp

theorem GemAggUsage.add_zero (a : GemAggUsage) : a.add GemAggUsage.zero = a := by
  cases a
  simp [GemAggUsage.add, GemAggUsage.zero]

theorem GemAggUsage.add_assoc (a b c : GemAggUsage) :
    (a.add b).add c = a.add (b.add c) := by
  cases a; cases b; cases c
  simp [GemAggUsage.add]
  refine ⟨?_, ?_, ?_, ?_, ?_⟩ <;> ring

theorem jsonlUsageStep_parsed (parse : String → Option JLineObj) (acc : GemAggUsage)
    (l : String) (o : JLineObj) (hl : l ≠ "") (hp : parse l = some o) :
    jsonlUsageStep parse acc l = acc.add (lineAgg o) := by
  simp [jsonlUsageStep, hl, hp, GemAggUsage.add, lineAgg]

theorem jsonlUsageFold (parse : String → Option JLineObj) :
    ∀ (ls : List String) (acc : GemAggUsage),
      ls.foldl (jsonlUsageStep parse) acc =
        acc.add (aggSum ((ls.filter (fun l => l ≠ "")).filterMap parse)) := by
  intro ls
  induction ls with
  | nil =>
    intro acc
    simp [aggSum, GemAggUsage.add_zero]
  | cons l t ih =>
    intro acc
    by_cases hl : l = ""
    · subst hl
      simp [jsonlUsageStep, ih]
    · rw [List.foldl_cons]
      cases hp : parse l with
      | none =>
        have hstep : jsonlUsageStep parse acc l = acc := by
          simp [jsonlUsageStep, hl, hp]
        rw [hstep, ih]
        simp [List.filter_cons, hl, List.filterMap_cons, hp]
      | some o =>
        rw [jsonlUsageStep_parsed parse acc l o hl hp, ih]
        have : ((l :: t).filter (fun l => l ≠ "")).filterMap parse =
            o :: (t.filter (fun l => l ≠ "")).filterMap parse := by
          simp [List.filter_cons, hl, List.filterMap_cons, hp]
        rw [this]
        show (acc.add (lineAgg o)).add _ = acc.add (aggSum (o :: _))
        rw [GemAggUsage.add_assoc]
        rfl

theorem claudeMultiLoop_totals (parseLine : String → Option ClaudeResultLine)
    (prompts : List String) :
    ∀ (lines : List String) (c : Nat) (t : ClaudeUsageTotals) (m : String),
      (claudeMultiLoop parseLine prompts lines c t m).2 =
        (lines.filterMap parseLine).foldl
          (fun acc line => claudeAddUsage acc line.result) t := by
  intro lines
  induction lines with
  | nil => intro c t m; rfl
  | cons l ls ih =>
    intro c t m
    cases hp : parseLine l with
    | none => simp [claudeMultiLoop, hp, ih, List.filterMap_cons]
    | some line => simp [claudeMultiLoop, hp, ih, List.filterMap_cons]

theorem claudeFold_complete :
    ∀ (ls : List ClaudeResultLine) (a b c d : Int),
      (∀ line ∈ ls, claudeUsageComplete line = true) →
      ls.foldl (fun acc line => claudeAddUsage acc line.result)
          ⟨JsNum.num a, JsNum.num b, JsNum.num c, JsNum.num d⟩ =
        ⟨JsNum.num (a + (ls.map claudeInputOf).sum),
         JsNum.num (b + (ls.map claudeCacheCreateOf).sum),
         JsNum.num (c + (ls.map claudeCacheReadOf).sum),
         JsNum.num (d + (ls.map claudeOutputOf).sum)⟩ := by
  intro ls
  induction ls with
  | nil =>
    intro a b c d _
    simp
  | cons line rest ih =>
    intro a b c d hall
    have hline := hall line (List.mem_cons_self line rest)
    have hrest : ∀ l ∈ rest, claudeUsageComplete l = true :=
      fun l hl => hall l (List.mem_cons_of_mem line hl)
    rw [List.foldl_cons]
    cases hu : claudeLineUsage line with
    | none => simp [claudeUsageComplete, hu] at hline
    | some u =>
      simp only [claudeUsageComplete, hu, Bool.and_eq_true] at hline
      obtain ⟨⟨⟨h1, h2⟩, h3⟩, h4⟩ := hline
      obtain ⟨x1, hx1⟩ := Option.isSome_iff_exists.mp h1
      obtain ⟨x2, hx2⟩ := Option.isSome_iff_exists.mp h2
      obtain ⟨x3, hx3⟩ := Option.isSome_iff_exists.mp h3
      obtain ⟨x4, hx4⟩ := Option.isSome_iff_exists.mp h4
      have hstep : claudeAddUsage ⟨JsNum.num a, JsNum.num b, JsNum.num c, JsNum.num d⟩
          line.result =
          ⟨JsNum.num (a + x1), JsNum.num (b + x2), JsNum.num (c + x3), JsNum.num (d + x4)⟩ := by
        have hu' : (line.result.bind ClaudeResultDetails.message).bind ClaudeInnerMsg.usage
            = some u := hu
        simp [claudeAddUsage, hu', hx1, hx2, hx3, hx4, JsNum.addOpt]
      rw [hstep, ih (a + x1) (b + x2) (c + x3) (d + x4) hrest]
      have hin : claudeInputOf line = x1 := by
        simp [claudeInputOf, hu, hx1, orZero]
      have hcc : claudeCacheCreateOf line = x2 := by
        simp [claudeCacheCreateOf, hu, hx2, orZero]
      have hcr : claudeCacheReadOf line = x3 := by
        simp [claudeCacheReadOf, hu, hx3, orZero]
      have hout : claudeOutputOf line = x4 := by
        simp [claudeOutputOf, hu, hx4, orZero]
      simp [hin, hcc, hcr, hout]
      refine ⟨?_, ?_, ?_, ?_⟩ <;> ring

theorem GemAggUsage.zero_add (a : GemAggUsage) : GemAggUsage.zero.add a = a := by
  cases a
  simp [GemAggUsage.add, GemAggUsage.zero]

theorem aggSum_fields (os : List JLineObj) :
    (aggSum os).promptTokenCount = (os.map (fun o => linePromptTokens o.usageMeta)).sum ∧
    (aggSum os).candidatesTokenCount = (os.map (fun o => lineCandidatesTokens o.usageMeta)).sum ∧
    (aggSum os).totalTokenCount = (os.map (fun o => lineTotalTokens o.usageMeta)).sum ∧
    (aggSum os).promptDetailsTokenCount = (os.map (fun o => lineDetailsTokens o.usageMeta)).sum ∧
    (aggSum os).thoughtsTokenCount = (os.map (fun o => lineThoughtsTokens o.usageMeta)).sum := by
  induction os with
  | nil => simp [aggSum, GemAggUsage.zero]
  | cons o os ih =>
    obtain ⟨h1, h2, h3, h4, h5⟩ := ih
    simp [aggSum, GemAggUsage.add, lineAgg, h1, h2, h3, h4, h5]

/-- C3 (amended): file-based usage aggregation (`parseJsonlUsageData`) is
the field-wise integer sum of the per-line contributions over the lines
that parse, and a line with no usage object contributes zero to every
field; the Claude aggregation in `getClaudeJobResult`, however, adds the
four usage fields without a missing-field default, so its totals equal
the field-wise sums only when every parsed item carries all four usage
fields (an item missing one poisons that total to NaN — see the
counterexample). -/
theorem c3_usage_fieldwise_sums :
    (∀ (parseJSON : String → Option JLineObj) (s : String),
      parseJsonlUsageData parseJSON s = aggSum (validJsonlObjs parseJSON s)) ∧
    (∀ o : JLineObj, o.usageMeta = none → lineAgg o = GemAggUsage.zero) ∧
    (∀ os : List JLineObj,
      (aggSum os).promptTokenCount = (os.map (fun o => linePromptTokens o.usageMeta)).sum ∧
      (aggSum os).candidatesTokenCount =
        (os.map (fun o => lineCandidatesTokens o.usageMeta)).sum ∧
      (aggSum os).totalTokenCount = (os.map (fun o => lineTotalTokens o.usageMeta)).sum ∧
      (aggSum os).promptDetailsTokenCount =
        (os.map (fun o => lineDetailsTokens o.usageMeta)).sum ∧
      (aggSum os).thoughtsTokenCount =
        (os.map (fun o => lineThoughtsTokens o.usageMeta)).sum) ∧
    (∀ (parseLine : String → Option ClaudeResultLine) (prompts : List String) (s : String),
      (∀ line ∈ claudeValidLines parseLine s, claudeUsageComplete line = true) →
      ∃ message, getClaudeJobResult (ProviderCall.ok (ClaudeFetched.jsonlText s))
          parseLine prompts false =
        ClaudeJobResultOut.withUsage message
          ⟨JsNum.num ((claudeValidLines parseLine s).map claudeInputOf).sum,
           JsNum.num ((claudeValidLines parseLine s).map claudeCacheCreateOf).sum,
           JsNum.num ((claudeValidLines parseLine s).map claudeCacheReadOf).sum,
           JsNum.num ((claudeValidLines parseLine s).map claudeOutputOf).sum⟩) := by
  refine ⟨?_, ?_, aggSum_fields, ?_⟩
  · intro parseJSON s
    rw [parseJsonlUsageData, jsonlUsageFold]
    exact GemAggUsage.zero_add _
  · intro o h
    simp [lineAgg, h, linePromptTokens, lineCandidatesTokens, lineTotalTokens,
      lineDetailsTokens, lineThoughtsTokens, orFalsy, orZero, GemAggUsage.zero]
  · intro parseLine prompts s hall
    have hdef : getClaudeJobResult (ProviderCall.ok (ClaudeFetched.jsonlText s))
        parseLine prompts false =
        ClaudeJobResultOut.withUsage
          (claudeMultiLoop parseLine prompts
            ((jsSplitNewline s).filter (fun line => jsTrim line ≠ "")) 0
            ⟨JsNum.num 0, JsNum.num 0, JsNum.num 0, JsNum.num 0⟩ "").1
          (claudeMultiLoop parseLine prompts
            ((jsSplitNewline s).filter (fun line => jsTrim line ≠ "")) 0
            ⟨JsNum.num 0, JsNum.num 0, JsNum.num 0, JsNum.num 0⟩ "").2 := rfl
    refine ⟨(claudeMultiLoop parseLine prompts
        ((jsSplitNewline s).filter (fun line => jsTrim line ≠ "")) 0
        ⟨JsNum.num 0, JsNum.num 0, JsNum.num 0, JsNum.num 0⟩ "").1, ?_⟩
    rw [hdef]
    congr 1
    rw [claudeMultiLoop_totals]
    have hfold := claudeFold_complete (claudeValidLines parseLine s) 0 0 0 0 hall
    simp only [Int.zero_add, zero_add] at hfold
    exact hfold

/-- C3 (counterexample): in the Claude aggregation, the line `l2` (an
errored item, no usage object) poisons the input-token total to `NaN`,
whereas the claim demands the sum of the present values, 5. -/
theorem c3_missing_field_poisons_total :
    ((claudeValidLines c3Parse "l1\nl2").map claudeInputOf).sum = 5 ∧
    (match getClaudeJobResult (ProviderCall.ok (ClaudeFetched.jsonlText "l1\nl2"))
        c3Parse ["p1", "p2"] false with
      | ClaudeJobResultOut.withUsage _ totals => totals.input_tokens
      | ClaudeJobResultOut.fetchFailed _ => JsNum.num 999) = JsNum.nan ∧
    JsNum.nan ≠ JsNum.num 5 := by
  refine ⟨by decide, by decide, by decide⟩

/-- C3 (witness): the amended theorem applied to the one-line document
`l1`, whose single parsed item carries all four usage fields. -/
theorem c3_usage_fieldwise_sums_witness :
    ∃ message, getClaudeJobResult (ProviderCall.ok (ClaudeFetched.jsonlText "l1"))
        c3Parse ["p1"] false =
      ClaudeJobResultOut.withUsage message
        ⟨JsNum.num ((claudeValidLines c3Parse "l1").map claudeInputOf).sum,
         JsNum.num ((claudeValidLines c3Parse "l1").map claudeCacheCreateOf).sum,
         JsNum.num ((claudeValidLines c3Parse "l1").map claudeCacheReadOf).sum,
         JsNum.num ((claudeValidLines c3Parse "l1").map claudeOutputOf).sum⟩ :=
  c3_usage_fieldwise_sums.2.2.2 c3Parse ["p1"] "l1" (by decide)

theorem claudeMultiLoop_message (parseLine : String → Option ClaudeResultLine)
    (prompts : List String) :
    ∀ (lines : List String) (c : Nat) (t : ClaudeUsageTotals) (m : String),
      (claudeMultiLoop parseLine prompts lines c t m).1 =
        m ++ strJoin (claudeBlocksFrom prompts c (lines.filterMap parseLine)) := by
  intro lines
  induction lines with
  | nil =>
    intro c t m
    simp [claudeMultiLoop, claudeBlocksFrom, strJoin, String.append_empty]
  | cons l ls ih =>
    intro c t m
    cases hp : parseLine l with
    | none => simp [claudeMultiLoop, hp, ih, List.filterMap_cons]
    | some line =>
      simp only [claudeMultiLoop, hp, ih, List.filterMap_cons, claudeBlocksFrom, strJoin]
      rw [String.append_assoc]

theorem claudeBlocksFrom_get (prompts : List String) :
    ∀ (ls : List ClaudeResultLine) (c i : Nat),
      (claudeBlocksFrom prompts c ls).get? i =
        (ls.get? i).map (claudeRenderBlock prompts (c + i)) := by
  intro ls
  induction ls with
  | nil => intro c i; simp [claudeBlocksFrom]
  | cons line rest ih =>
    intro c i
    cases i with
    | zero => simp [claudeBlocksFrom]
    | succ j =>
      simp only [claudeBlocksFrom, List.get?_cons_succ]
      rw [ih (c + 1) j]
      have hc : c + 1 + j = c + (j + 1) := by omega
      rw [hc]

/-- `parseGeminiInlineResponses` on a non-empty inline list is the
blank-line join of one block per item, each block rendered from the item
and its payload position. -/
theorem parseGeminiInlineResponses_blocks (lro : GeminiLro) (prompts : List String)
    (single : Bool) (h : geminiInlined lro ≠ []) :
    parseGeminiInlineResponses lro prompts single =
      String.intercalate "\n\n" ((geminiInlined lro).enum.map
        (fun pr => geminiRenderItem prompts single pr.1 pr.2)) := by
  unfold parseGeminiInlineResponses
  rw [if_neg]
  simpa using h

theorem geminiRenderItem_eq (prompts : List String) (i : Nat) (item : GeminiInlineItem)
    (k p : String) (hkey : item.metadata.bind GMeta.key = some k) (hk : k ≠ "")
    (hp : prompts.get? i = some p) (hpne : p ≠ "") :
    geminiRenderItem prompts false i item =
      "--- Request Key: " ++ k ++ " ---\n" ++
      "Prompt: " ++ p ++ "\n" ++
      "Response: " ++ geminiItemContent item ++
      (if jsTruthyStr (item.error.map GError.message) then
        "\nError: " ++ optStr (item.error.map GError.message) else "") := by
  unfold geminiRenderItem geminiItemPrompt
  rw [hkey, hp]
  simp [jsTruthyStr, hk, hpne, optStr]

theorem claudeRenderBlock_eq (prompts : List String) (i : Nat) (line : ClaudeResultLine)
    (cid : String) (hcid : line.custom_id = some cid) (hcne : cid ≠ "") :
    claudeRenderBlock prompts i line =
      "--- Request Key: " ++ cid ++ " ---\n" ++
      "Prompt: " ++ optStr (prompts.get? i) ++ "\n" ++
      claudeBranchText line ++ "\n\n" := by
  unfold claudeRenderBlock
  rw [hcid]
  simp [jsTruthyStr, hcne, optStr]

/-- C2 (amended): result normalization aligns by payload position, not by
the item's positional key: the block at position i of the rendered
output pairs the i-th returned item (whatever key k it carries — the key
is only displayed in the header) with originalPrompts[i]; likewise the
i-th successfully parsed Claude line is paired with originalPrompts[i]
whatever its custom_id.  The claimed request-{n} → originalPrompts[n-1]
alignment therefore holds exactly when the provider returns items in
positional-key order. -/
theorem c2_alignment_by_payload_position :
    (∀ (lro : GeminiLro) (prompts : List String) (i : Nat) (item : GeminiInlineItem)
        (k p : String),
      (geminiInlined lro).get? i = some item →
      item.metadata.bind GMeta.key = some k → k ≠ "" →
      prompts.get? i = some p → p ≠ "" →
      ∃ blocks, parseGeminiInlineResponses lro prompts false =
          String.intercalate "\n\n" blocks ∧
        blocks.length = (geminiInlined lro).length ∧
        blocks.get? i = some ("--- Request Key: " ++ k ++ " ---\n" ++
          "Prompt: " ++ p ++ "\n" ++
          "Response: " ++ geminiItemContent item ++
          (if jsTruthyStr (item.error.map GError.message) then
            "\nError: " ++ optStr (item.error.map GError.message) else ""))) ∧
    (∀ (parseLine : String → Option ClaudeResultLine) (prompts : List String) (s : String)
        (i : Nat) (line : ClaudeResultLine) (cid : String),
      (claudeValidLines parseLine s).get? i = some line →
      line.custom_id = some cid → cid ≠ "" →
      ∃ totals, getClaudeJobResult (ProviderCall.ok (ClaudeFetched.jsonlText s))
          parseLine prompts false =
        ClaudeJobResultOut.withUsage
          (strJoin (claudeBlocksFrom prompts 0 (claudeValidLines parseLine s))) totals ∧
        (claudeBlocksFrom prompts 0 (claudeValidLines parseLine s)).get? i =
          some ("--- Request Key: " ++ cid ++ " ---\n" ++
            "Prompt: " ++ optStr (prompts.get? i) ++ "\n" ++
            claudeBranchText line ++ "\n\n")) := by
  constructor
  · intro lro prompts i item k p hitem hkey hk hp hpne
    have hne : geminiInlined lro ≠ [] := by
      intro hnil
      rw [hnil] at hitem
      simp at hitem
    have hblocks := parseGeminiInlineResponses_blocks lro prompts false hne
    have hlen : ((geminiInlined lro).enum.map
        (fun pr => geminiRenderItem prompts false pr.1 pr.2)).length =
        (geminiInlined lro).length := by
      rw [List.length_map, List.enum_length]
    have hget : ((geminiInlined lro).enum.map
        (fun pr => geminiRenderItem prompts false pr.1 pr.2)).get? i =
        some ("--- Request Key: " ++ k ++ " ---\n" ++
          "Prompt: " ++ p ++ "\n" ++
          "Response: " ++ geminiItemContent item ++
          (if jsTruthyStr (item.error.map GError.message) then
            "\nError: " ++ optStr (item.error.map GError.message) else "")) := by
      rw [List.get?_map, List.get?_enum, hitem, Option.map_some', Option.map_some']
      rw [geminiRenderItem_eq prompts i item k p hkey hk hp hpne]
    exact ⟨_, hblocks, hlen, hget⟩
  · intro parseLine prompts s i line cid hline hcid hcne
    have hdef : getClaudeJobResult (ProviderCall.ok (ClaudeFetched.jsonlText s))
        parseLine prompts false =
        ClaudeJobResultOut.withUsage
          (claudeMultiLoop parseLine prompts
            ((jsSplitNewline s).filter (fun l => jsTrim l ≠ "")) 0
            ⟨JsNum.num 0, JsNum.num 0, JsNum.num 0, JsNum.num 0⟩ "").1
          (claudeMultiLoop parseLine prompts
            ((jsSplitNewline s).filter (fun l => jsTrim l ≠ "")) 0
            ⟨JsNum.num 0, JsNum.num 0, JsNum.num 0, JsNum.num 0⟩ "").2 := rfl
    refine ⟨(claudeMultiLoop parseLine prompts
        ((jsSplitNewline s).filter (fun l => jsTrim l ≠ "")) 0
        ⟨JsNum.num 0, JsNum.num 0, JsNum.num 0, JsNum.num 0⟩ "").2,
      hdef.trans ?_, ?_⟩
    · congr 1
      rw [claudeMultiLoop_message]
      exact String.empty_append _
    · rw [claudeBlocksFrom_get, hline, Option.map_some']
      rw [show (0 + i) = i by omega]
      rw [claudeRenderBlock_eq prompts i line cid hcid hcne]

/-- C2 (counterexample): when the provider lists the request-2 item
first, the rendered output pairs the block headed "request-2" with
originalPrompts[0] ("p1"), not with originalPrompts[1] ("p2") — the
explicit positional key is not used for alignment. -/
theorem c2_key_not_used_for_alignment :
    jsIncludes (parseGeminiInlineResponses c2LroSwapped ["p1", "p2"] false)
      "Request Key: request-2 ---\nPrompt: p1" = true ∧
    jsIncludes (parseGeminiInlineResponses c2LroSwapped ["p1", "p2"] false)
      "Request Key: request-2 ---\nPrompt: p2" = false := by
  refine ⟨by decide, by decide⟩

/-- C2 (witness): the amended theorem applied to the swapped payload —
the first-listed item (carrying key request-2) is paired with the first
original prompt. -/
theorem c2_alignment_by_payload_position_witness :
    ∃ blocks, parseGeminiInlineResponses c2LroSwapped ["p1", "p2"] false =
        String.intercalate "\n\n" blocks ∧
      blocks.length = (geminiInlined c2LroSwapped).length ∧
      blocks.get? 0 = some ("--- Request Key: " ++ "request-2" ++ " ---\n" ++
        "Prompt: " ++ "p1" ++ "\n" ++
        "Response: " ++ geminiItemContent c2ItemKey2 ++
        (if jsTruthyStr (c2ItemKey2.error.map GError.message) then
          "\nError: " ++ optStr (c2ItemKey2.error.map GError.message) else "")) :=
  c2_alignment_by_payload_position.1 c2LroSwapped ["p1", "p2"] 0 c2ItemKey2
    "request-2" "p1" (by decide) (by decide) (by decide) (by decide) (by decide)

theorem geminiRenderItem_single_eq (ps : List String) (i : Nat) (item : GeminiInlineItem)
    (k : String) (hkey : item.metadata.bind GMeta.key = some k) (hk : k ≠ "") :
    geminiRenderItem ps true i item =
      "--- Request Key: " ++ k ++ " ---\n" ++
      "Prompt: " ++ String.intercalate "__" ps ++ "\n" ++
      "Response: " ++ geminiItemContent item ++
      (if jsTruthyStr (item.error.map GError.message) then
        "\nError: " ++ optStr (item.error.map GError.message) else "") := by
  unfold geminiRenderItem geminiItemPrompt
  rw [hkey]
  simp [jsTruthyStr, hk, optStr]

/-- C6: a single-conversation submission creates exactly one batch
request item — for Gemini one bare request object keyed request-1 whose
`contents` are all the prompts as sequential user turns, for Claude a
one-element request array keyed request-1 whose `messages` are all the
prompts as user messages — and the rendered result attributes the single
item to the joined prompt p1__p2__...__pk as its `Prompt:` line, on both
the Gemini inline path and the Claude single-chat path. -/
theorem c6_single_conversation_one_item :
    (∀ (ps : List String) (temperature : Int) (systemPrompt : Option String),
      ∃ r, formatGeminiBatchRequests ps true temperature systemPrompt =
          GeminiFormatted.one r ∧
        r.metadataKey = "request-1" ∧
        r.contents = ps.map (fun p => GemContent.mk (some "user") [p])) ∧
    (∀ ps : List String,
      (formatClaudeBatchRequests ps true).length = 1 ∧
      (formatClaudeBatchRequests ps true).head?.map ClaudeReqItem.messages =
        some (ps.map (fun p => ClaudeMsg.mk "user" p)) ∧
      (formatClaudeBatchRequests ps true).head?.map ClaudeReqItem.custom_id =
        some "request-1") ∧
    (∀ (lro : GeminiLro) (ps : List String) (item : GeminiInlineItem) (k : String),
      geminiInlined lro = [item] →
      item.metadata.bind GMeta.key = some k → k ≠ "" →
      parseGeminiInlineResponses lro ps true =
        "--- Request Key: " ++ k ++ " ---\n" ++
        "Prompt: " ++ String.intercalate "__" ps ++ "\n" ++
        "Response: " ++ geminiItemContent item ++
        (if jsTruthyStr (item.error.map GError.message) then
          "\nError: " ++ optStr (item.error.map GError.message) else "")) ∧
    (∀ (ps : List String) (line : ClaudeResultLine) (cid : String),
      line.custom_id = some cid → cid ≠ "" →
      (claudeSingleMessage ps line).1 =
        "--- Request Key: " ++ cid ++ " ---\n" ++
        "Prompt: " ++ String.intercalate "__" ps ++ "\n" ++
        claudeBranchText line ++ "\n\n") := by
  refine ⟨?_, ?_, ?_, ?_⟩
  · intro ps temperature systemPrompt
    by_cases hs : jsTruthyStr systemPrompt = true <;>
      simp [formatGeminiBatchRequests, hs]
  · intro ps
    simp [formatClaudeBatchRequests]
  · intro lro ps item k hlro hkey hk
    have hne : geminiInlined lro ≠ [] := by
      rw [hlro]
      simp
    rw [parseGeminiInlineResponses_blocks lro ps true hne, hlro]
    show String.intercalate "\n\n" [geminiRenderItem ps true 0 item] = _
    rw [show String.intercalate "\n\n" [geminiRenderItem ps true 0 item] =
      geminiRenderItem ps true 0 item from rfl]
    exact geminiRenderItem_single_eq ps 0 item k hkey hk
  · intro ps line cid hcid hcne
    unfold claudeSingleMessage
    rw [hcid]
    simp [jsTruthyStr, hcne, optStr]

/-- C6 (witness): the single-conversation theorem applied to the prompts
x and y — one request item is created and the rendered results attribute
the joined prompt x__y. -/
theorem c6_single_conversation_one_item_witness :
    (∃ r, formatGeminiBatchRequests ["x", "y"] true 1 none = GeminiFormatted.one r ∧
      r.metadataKey = "request-1" ∧
      r.contents = (["x", "y"]).map (fun p => GemContent.mk (some "user") [p])) ∧
    ((formatClaudeBatchRequests ["x", "y"] true).length = 1 ∧
      (formatClaudeBatchRequests ["x", "y"] true).head?.map ClaudeReqItem.messages =
        some ((["x", "y"]).map (fun p => ClaudeMsg.mk "user" p)) ∧
      (formatClaudeBatchRequests ["x", "y"] true).head?.map ClaudeReqItem.custom_id =
        some "request-1") ∧
    parseGeminiInlineResponses c6Lro ["x", "y"] true =
      "--- Request Key: " ++ "request-1" ++ " ---\n" ++
      "Prompt: " ++ String.intercalate "__" ["x", "y"] ++ "\n" ++
      "Response: " ++ geminiItemContent c6Item ++
      (if jsTruthyStr (c6Item.error.map GError.message) then
        "\nError: " ++ optStr (c6Item.error.map GError.message) else "") ∧
    (claudeSingleMessage ["x", "y"] c6ClaudeLine).1 =
      "--- Request Key: " ++ "request-1" ++ " ---\n" ++
      "Prompt: " ++ String.intercalate "__" ["x", "y"] ++ "\n" ++
      claudeBranchText c6ClaudeLine ++ "\n\n" :=
  ⟨c6_single_conversation_one_item.1 ["x", "y"] 1 none,
   c6_single_conversation_one_item.2.1 ["x", "y"],
   c6_single_conversation_one_item.2.2.1 c6Lro ["x", "y"] c6Item "request-1"
     (by decide) (by decide) (by decide),
   c6_single_conversation_one_item.2.2.2 ["x", "y"] c6ClaudeLine "request-1"
     (by decide) (by decide)⟩

theorem submitLoop_cons (env : SubmitEnv) (method : String) (prompts : Option (List String))
    (m : String) (rest : List String) (n : Nat) (store : Store)
    (acc : List (String × SubmitEntry)) (calls : List CallTag) :
    submitLoop env method prompts (m :: rest) n store acc calls =
      submitLoop env method prompts rest (n + 1)
        (setAssoc (setAssoc store (generateInternalJobId n)
            (initialJobRecord m method (prompts.getD []) env.now))
          (generateInternalJobId n)
          (submitResultAt env method prompts m (generateInternalJobId n)).1)
        (setAssoc acc m (submitResultAt env method prompts m (generateInternalJobId n)).2)
        (calls ++ (if (submitOutcome env (prompts ≠ none) m (generateInternalJobId n)).2 then
          [CallTag.create m (generateInternalJobId n)] else [])) := rfl

theorem submitLoop_entries (env : SubmitEnv) (method : String)
    (prompts : Option (List String)) :
    ∀ (ms : List String) (n : Nat) (store : Store) (acc : List (String × SubmitEntry))
      (calls : List CallTag),
      (∀ m ∈ ms, getAssoc acc m = none) → ms.Nodup →
      (submitLoop env method prompts ms n store acc calls).1 =
        acc ++ submitEntriesFrom env method prompts ms n := by
  intro ms
  induction ms with
  | nil =>
    intro n store acc calls _ _
    simp [submitLoop, submitEntriesFrom]
  | cons m rest ih =>
    intro n store acc calls hacc hnodup
    rw [submitLoop_cons]
    have haccm : getAssoc acc m = none := hacc m (List.mem_cons_self m rest)
    rw [setAssoc_eq_append acc m _ haccm]
    have hacc' : ∀ m' ∈ rest, getAssoc (acc ++
        [(m, (submitResultAt env method prompts m (generateInternalJobId n)).2)]) m' = none := by
      intro m' hm'
      rw [getAssoc_append]
      have h1 : getAssoc acc m' = none := hacc m' (List.mem_cons_of_mem m hm')
      have hmm : ¬ (m = m') := by
        intro hq
        subst hq
        exact (List.nodup_cons.mp hnodup).1 hm'
      simp [h1, getAssoc, hmm]
    rw [ih (n + 1) _ _ _ hacc' (List.nodup_cons.mp hnodup).2]
    rw [List.append_assoc]
    rfl

theorem submitEntriesFrom_keys (env : SubmitEnv) (method : String)
    (prompts : Option (List String)) :
    ∀ (ms : List String) (n : Nat),
      (submitEntriesFrom env method prompts ms n).map Prod.fst = ms := by
  intro ms
  induction ms with
  | nil => intro n; rfl
  | cons m rest ih =>
    intro n
    simp [submitEntriesFrom, ih]

theorem submitEntriesFrom_get (env : SubmitEnv) (method : String)
    (prompts : Option (List String)) :
    ∀ (ms : List String) (n : Nat) (i : Nat) (hi : i < ms.length),
      ms.Nodup →
      getAssoc (submitEntriesFrom env method prompts ms n) (ms.get ⟨i, hi⟩) =
        some (submitResultAt env method prompts (ms.get ⟨i, hi⟩)
          (generateInternalJobId (n + i))).2 := by
  intro ms
  induction ms with
  | nil =>
    intro n i hi
    exact absurd hi (by simp)
  | cons m rest ih =>
    intro n i hi hnodup
    cases i with
    | zero =>
      simp [submitEntriesFrom, getAssoc]
    | succ j =>
      have hj : j < rest.length := by
        simpa using hi
      have hne : ¬ (m = rest.get ⟨j, hj⟩) := by
        intro hq
        exact (List.nodup_cons.mp hnodup).1 (hq ▸ rest.get_mem j hj)
      have hget : (m :: rest).get ⟨j + 1, hi⟩ = rest.get ⟨j, hj⟩ := rfl
      rw [hget]
      simp only [submitEntriesFrom, getAssoc, if_neg hne]
      rw [ih (n + 1) j hj (List.nodup_cons.mp hnodup).2]
      have : n + 1 + j = n + (j + 1) := by omega
      rw [this]

theorem submitLoop_store_frame (env : SubmitEnv) (method : String)
    (prompts : Option (List String)) :
    ∀ (ms : List String) (n : Nat) (store : Store) (acc : List (String × SubmitEntry))
      (calls : List CallTag) (k : String),
      (∀ j, j < ms.length → generateInternalJobId (n + j) ≠ k) →
      getAssoc (submitLoop env method prompts ms n store acc calls).2.1 k =
        getAssoc store k := by
  intro ms
  induction ms with
  | nil =>
    intro n store acc calls k _
    rfl
  | cons m rest ih =>
    intro n store acc calls k hk
    rw [submitLoop_cons]
    rw [ih (n + 1) _ _ _ k (fun j hj => by
      have h := hk (j + 1) (by simpa using Nat.succ_lt_succ hj)
      have ha : n + 1 + j = n + (j + 1) := by omega
      rw [ha]
      exact h)]
    have h0 : generateInternalJobId n ≠ k := by
      have := hk 0 (by simp)
      simpa using this
    simp [getAssoc_setAssoc, h0]

theorem submitLoop_store_get (env : SubmitEnv) (method : String)
    (prompts : Option (List String)) :
    ∀ (ms : List String) (n : Nat) (store : Store) (acc : List (String × SubmitEntry))
      (calls : List CallTag) (i : Nat) (hi : i < ms.length),
      (∀ j, j < ms.length → j ≠ i →
        generateInternalJobId (n + j) ≠ generateInternalJobId (n + i)) →
      getAssoc (submitLoop env method prompts ms n store acc calls).2.1
          (generateInternalJobId (n + i)) =
        some (submitResultAt env method prompts (ms.get ⟨i, hi⟩)
          (generateInternalJobId (n + i))).1 := by
  intro ms
  induction ms with
  | nil =>
    intro n store acc calls i hi
    exact absurd hi (by simp)
  | cons m rest ih =>
    intro n store acc calls i hi hfresh
    rw [submitLoop_cons]
    cases i with
    | zero =>
      rw [submitLoop_store_frame env method prompts rest (n + 1) _ _ _ _ (fun j hj => by
        have h := hfresh (j + 1) (by simpa using Nat.succ_lt_succ hj) (by simp)
        have ha : n + 1 + j = n + (j + 1) := by omega
        have hb : n + 0 = n := by omega
        rw [ha]
        rw [hb] at h
        exact h)]
      simp [getAssoc_setAssoc]
    | succ j =>
      have hj : j < rest.length := by simpa using hi
      have hres : (m :: rest).get ⟨j + 1, hi⟩ = rest.get ⟨j, hj⟩ := rfl
      rw [hres]
      have harith : n + (j + 1) = (n + 1) + j := by omega
      rw [harith]
      exact ih (n + 1) _ _ _ j hj (fun j' hj' hne => by
        have := hfresh (j' + 1) (by simpa using Nat.succ_lt_succ hj') (by omega)
        have ha : n + (j' + 1) = n + 1 + j' := by omega
        have hb : n + (j + 1) = n + 1 + j := by omega
        rw [ha, hb] at this
        exact this)

/-- C4: a submitBatchJob call that passes validation returns (never
throws) one entry per requested provider, in request order; the entry
and the stored job record of each provider are a function of that
provider's own submission outcome alone (so one provider's failure
leaves every other provider's submission unaffected); and a provider
whose create call throws with message e gets the FAILED entry carrying e
while its job record is marked FAILED with the error stored in result.
(The freshness hypothesis spells out that the generated job ids are
pairwise distinct.) -/
theorem c4_per_provider_isolation
    (env : SubmitEnv) (store : Store) (nextId : Nat) (method : String)
    (prompts : Option (List String)) (ms : List String)
    (hms : ms ≠ []) (hnodup : ms.Nodup)
    (hval : ¬ (method = "text_input" ∧ (prompts = none ∨ prompts = some [])))
    (hfresh : ∀ i, i < ms.length → ∀ j, j < ms.length → j ≠ i →
      generateInternalJobId (nextId + j) ≠ generateInternalJobId (nextId + i)) :
    ∃ entries store' n' calls,
      submitBatchJob env store nextId method prompts (some ms) =
        (Except.ok entries, store', n', calls) ∧
      entries.map Prod.fst = ms ∧
      (∀ i (hi : i < ms.length),
        getAssoc entries (ms.get ⟨i, hi⟩) =
          some (submitResultAt env method prompts (ms.get ⟨i, hi⟩)
            (generateInternalJobId (nextId + i))).2 ∧
        getAssoc store' (generateInternalJobId (nextId + i)) =
          some (submitResultAt env method prompts (ms.get ⟨i, hi⟩)
            (generateInternalJobId (nextId + i))).1) ∧
      (∀ (modelId internalJobId e : String),
        (submitOutcome env (prompts ≠ none) modelId internalJobId).1 = Except.error e →
        (submitResultAt env method prompts modelId internalJobId).2 =
          SubmitEntry.failedEntry internalJobId e ∧
        (submitResultAt env method prompts modelId internalJobId).1.status = "FAILED" ∧
        (submitResultAt env method prompts modelId internalJobId).1.result =
          some ("Failed to submit job: " ++ e)) := by
  have hrun : submitBatchJob env store nextId method prompts (some ms) =
      (Except.ok (submitLoop env method prompts ms nextId store [] []).1,
       (submitLoop env method prompts ms nextId store [] []).2.1,
       (submitLoop env method prompts ms nextId store [] []).2.2.1,
       (submitLoop env method prompts ms nextId store [] []).2.2.2) := by
    simp [submitBatchJob, List.length_eq_zero, hms, hval]
  refine ⟨(submitLoop env method prompts ms nextId store [] []).1,
    (submitLoop env method prompts ms nextId store [] []).2.1,
    (submitLoop env method prompts ms nextId store [] []).2.2.1,
    (submitLoop env method prompts ms nextId store [] []).2.2.2, hrun, ?_, ?_, ?_⟩
  · rw [submitLoop_entries env method prompts ms nextId store [] []
      (fun m _ => rfl) hnodup]
    simp [submitEntriesFrom_keys]
  · intro i hi
    constructor
    · rw [submitLoop_entries env method prompts ms nextId store [] []
        (fun m _ => rfl) hnodup]
      simp only [List.nil_append]
      exact submitEntriesFrom_get env method prompts ms nextId i hi hnodup
    · exact submitLoop_store_get env method prompts ms nextId store [] [] i hi
        (hfresh i hi)
  · intro modelId internalJobId e herr
    unfold submitResultAt submitFinish
    rw [herr]
    exact ⟨rfl, rfl, rfl⟩

/-- C4 (witness): the isolation theorem applied to a two-provider
request where the Gemini create call succeeds and the Claude create call
throws. -/
theorem c4_per_provider_isolation_witness :
    ∃ entries store' n' calls,
      submitBatchJob probeSubmitEnv [] 1 "text_input" (some ["a"])
          (some ["gemini", "claude"]) =
        (Except.ok entries, store', n', calls) ∧
      entries.map Prod.fst = ["gemini", "claude"] ∧
      (∀ i (hi : i < (["gemini", "claude"] : List String).length),
        getAssoc entries ((["gemini", "claude"] : List String).get ⟨i, hi⟩) =
          some (submitResultAt probeSubmitEnv "text_input" (some ["a"])
            ((["gemini", "claude"] : List String).get ⟨i, hi⟩)
            (generateInternalJobId (1 + i))).2 ∧
        getAssoc store' (generateInternalJobId (1 + i)) =
          some (submitResultAt probeSubmitEnv "text_input" (some ["a"])
            ((["gemini", "claude"] : List String).get ⟨i, hi⟩)
            (generateInternalJobId (1 + i))).1) ∧
      (∀ (modelId internalJobId e : String),
        (submitOutcome probeSubmitEnv ((some ["a"] : Option (List String)) ≠ none)
          modelId internalJobId).1 = Except.error e →
        (submitResultAt probeSubmitEnv "text_input" (some ["a"]) modelId
          internalJobId).2 = SubmitEntry.failedEntry internalJobId e ∧
        (submitResultAt probeSubmitEnv "text_input" (some ["a"]) modelId
          internalJobId).1.status = "FAILED" ∧
        (submitResultAt probeSubmitEnv "text_input" (some ["a"]) modelId
          internalJobId).1.result = some ("Failed to submit job: " ++ e)) :=
  c4_per_provider_isolation probeSubmitEnv [] 1 "text_input" (some ["a"])
    ["gemini", "claude"] (by decide) (by decide) (by decide) (by decide)

theorem claudeBlocksFrom_length (prompts : List String) :
    ∀ (c : Nat) (ls : List ClaudeResultLine),
      (claudeBlocksFrom prompts c ls).length = ls.length := by
  intro c ls
  induction ls generalizing c with
  | nil => rfl
  | cons line rest ih => simp [claudeBlocksFrom, ih]

theorem length_filterMap_countP (f : α → Option β) :
    ∀ l : List α, (l.filterMap f).length = l.countP (fun x => (f x).isSome) := by
  intro l
  induction l with
  | nil => rfl
  | cons x t ih =>
    cases hx : f x <;>
      simp [List.filterMap_cons, hx, List.countP_cons, ih]

/-- C5 (amended): the shared JSONL parser used by the Gemini and OpenAI
file-upload result paths (`parseJsonlResults`) turns M well-formed lines
and one malformed line into M+1 entries — the M parsed entries plus one
error entry, the valid parses preserved in order; the Claude result loop
in `getClaudeJobResult`, however, only logs and skips a malformed line:
its rendered output is exactly one block per successfully parsed line —
M blocks, no error entry for the malformed line — with each block
aligned by the running counter over valid lines.  Neither path raises an
exception that discards the M valid entries (the embedding is total by
construction). -/
theorem c5_malformed_line_handling :
    (∀ (α : Type) (parse : String → Option α) (s : String) (M : Nat),
      (jsonlLines s).countP (fun l => (parse l).isSome) = M →
      (jsonlLines s).countP (fun l => (parse l).isNone) = 1 →
      (parseJsonlResults parse s).length = M + 1 ∧
      (parseJsonlResults parse s).countP (fun e => match e with
        | JsonlEntry.parsed _ => true
        | JsonlEntry.parseErrorLine _ => false) = M ∧
      (parseJsonlResults parse s).countP (fun e => match e with
        | JsonlEntry.parsed _ => false
        | JsonlEntry.parseErrorLine _ => true) = 1 ∧
      (parseJsonlResults parse s).filterMap (fun e => match e with
        | JsonlEntry.parsed v => some v
        | JsonlEntry.parseErrorLine _ => none) = (jsonlLines s).filterMap parse) ∧
    (∀ (parseLine : String → Option ClaudeResultLine) (prompts : List String)
        (s : String) (M : Nat),
      ((jsSplitNewline s).filter (fun l => jsTrim l ≠ "")).countP
        (fun l => (parseLine l).isSome) = M →
      ∃ totals,
        getClaudeJobResult (ProviderCall.ok (ClaudeFetched.jsonlText s))
            parseLine prompts false =
          ClaudeJobResultOut.withUsage
            (strJoin (claudeBlocksFrom prompts 0 (claudeValidLines parseLine s))) totals ∧
        (claudeBlocksFrom prompts 0 (claudeValidLines parseLine s)).length = M) := by
  constructor
  · intro α parse s M hgood hbad
    exact parseJsonlResults_malformed_isolated parse s M hgood hbad
  · intro parseLine prompts s M hM
    have hdef : getClaudeJobResult (ProviderCall.ok (ClaudeFetched.jsonlText s))
        parseLine prompts false =
        ClaudeJobResultOut.withUsage
          (claudeMultiLoop parseLine prompts
            ((jsSplitNewline s).filter (fun l => jsTrim l ≠ "")) 0
            ⟨JsNum.num 0, JsNum.num 0, JsNum.num 0, JsNum.num 0⟩ "").1
          (claudeMultiLoop parseLine prompts
            ((jsSplitNewline s).filter (fun l => jsTrim l ≠ "")) 0
            ⟨JsNum.num 0, JsNum.num 0, JsNum.num 0, JsNum.num 0⟩ "").2 := rfl
    refine ⟨(claudeMultiLoop parseLine prompts
        ((jsSplitNewline s).filter (fun l => jsTrim l ≠ "")) 0
        ⟨JsNum.num 0, JsNum.num 0, JsNum.num 0, JsNum.num 0⟩ "").2,
      hdef.trans ?_, ?_⟩
    · congr 1
      rw [claudeMultiLoop_message]
      exact String.empty_append _
    · rw [claudeBlocksFrom_length, claudeValidLines, length_filterMap_countP]
      exact hM

/-- C5 (counterexample): the Claude result loop, fed two well-formed
lines around the malformed line "bad", renders exactly the two parsed
blocks — the malformed line gets no error entry (its text appears
nowhere in the output), contradicting the claimed
one-error-entry-per-malformed-line behavior on this cited path. -/
theorem c5_claude_malformed_line_dropped :
    ((jsSplitNewline "l1\nbad\nl2").filter (fun l => jsTrim l ≠ "")).countP
      (fun l => (c3Parse l).isSome) = 2 ∧
    ((jsSplitNewline "l1\nbad\nl2").filter (fun l => jsTrim l ≠ "")).countP
      (fun l => (c3Parse l).isNone) = 1 ∧
    getClaudeJobResult (ProviderCall.ok (ClaudeFetched.jsonlText "l1\nbad\nl2"))
        c3Parse ["p1", "p2", "p3"] false =
      ClaudeJobResultOut.withUsage
        ("--- Request Key: request-1 ---\nPrompt: p1\nResponse: ok\n\n" ++
         "--- Request Key: request-2 ---\nPrompt: p2\nError: errobj\n\n")
        ⟨JsNum.nan, JsNum.nan, JsNum.nan, JsNum.nan⟩ ∧
    jsIncludes
      ("--- Request Key: request-1 ---\nPrompt: p1\nResponse: ok\n\n" ++
       "--- Request Key: request-2 ---\nPrompt: p2\nError: errobj\n\n") "bad" = false := by
  refine ⟨by decide, by decide, by decide, by decide⟩

/-- C5 (witness): the amended theorem applied to a two-good-one-bad
document on each path. -/
theorem c5_malformed_line_handling_witness :
    ((parseJsonlResults c5Parse "good1\nbad\ngood2").length = 2 + 1 ∧
      (parseJsonlResults c5Parse "good1\nbad\ngood2").countP (fun e => match e with
        | JsonlEntry.parsed _ => true
        | JsonlEntry.parseErrorLine _ => false) = 2 ∧
      (parseJsonlResults c5Parse "good1\nbad\ngood2").countP (fun e => match e with
        | JsonlEntry.parsed _ => false
        | JsonlEntry.parseErrorLine _ => true) = 1 ∧
      (parseJsonlResults c5Parse "good1\nbad\ngood2").filterMap (fun e => match e with
        | JsonlEntry.parsed v => some v
        | JsonlEntry.parseErrorLine _ => none) =
        (jsonlLines "good1\nbad\ngood2").filterMap c5Parse) ∧
    (∃ totals,
      getClaudeJobResult (ProviderCall.ok (ClaudeFetched.jsonlText "l1\nbad\nl2"))
          c3Parse ["p1", "p2", "p3"] false =
        ClaudeJobResultOut.withUsage
          (strJoin (claudeBlocksFrom ["p1", "p2", "p3"] 0
            (claudeValidLines c3Parse "l1\nbad\nl2"))) totals ∧
      (claudeBlocksFrom ["p1", "p2", "p3"] 0
        (claudeValidLines c3Parse "l1\nbad\nl2")).length = 2) :=
  ⟨c5_malformed_line_handling.1 Nat c5Parse "good1\nbad\ngood2" 2 (by decide) (by decide),
   c5_malformed_line_handling.2 c3Parse ["p1", "p2", "p3"] "l1\nbad\nl2" 2 (by decide)⟩
